import Mathlib

/-!
# Incremental synchronisation engine of the UTM integrations

A shallow embedding of

* `aws/main.go` and `sophos/main.go` (the polling loops and their sliding window),
* `sophos/processor/pull.go` (`PullLogs` and the `nextKeys` checkpoint map),
* `log-auth-proxy/config/constants.go` (`ValidateConnectorType`),

followed by the properties proved about them.

Conventions of the embedding

* A `time.Time` is the integer count of nanoseconds since the Unix epoch, so
  `t.Add(time.Nanosecond)` is `t + 1` and `t.Unix()` is `t / 10^9` (rounded down).
* A Go `string` is a Lean `String`; an `error` is the text of `err.Error()`.
* One pass of `for range ticker.C` is a function of the loop variable `startTime` and of
  a `Tick`, the values the pass obtains from outside (clock, connection check,
  configuration service).  A finite run of the loop is a list of ticks.
* Calls that leave the repository (loggers, the configuration client, the vendor
  adapter, the forwarder) are recorded, in program order, in the result of a pass.
* The goroutines of one pass are modelled by a small-step machine over the statements of
  `PullLogs`, driven by an arbitrary schedule.  `Sophos.step` takes every access to
  `nextKeys` as one step; `Sophos.raceStep` takes the map assignment made without the
  mutex in two halves and lets the runtime end the process when another access to the map
  falls between them.
-/

namespace UTM

/-! ## Go standard library: `strings.TrimSpace`, `strings.Contains` -/

/-- Go `unicode.IsSpace`: the Latin-1 spaces and the code points with the White_Space
property. -/
def isSpace (c : Char) : Bool :=
  c.toNat = 0x09 || c.toNat = 0x0A || c.toNat = 0x0B || c.toNat = 0x0C || c.toNat = 0x0D ||
  c.toNat = 0x20 || c.toNat = 0x85 || c.toNat = 0xA0 || c.toNat = 0x1680 ||
  (0x2000 ≤ c.toNat && c.toNat ≤ 0x200A) ||
  c.toNat = 0x2028 || c.toNat = 0x2029 || c.toNat = 0x202F || c.toNat = 0x205F ||
  c.toNat = 0x3000

/-- Go `strings.TrimSpace`: the string without its leading and trailing white space. -/
def TrimSpace (s : String) : String :=
  String.mk ((s.data.dropWhile isSpace).reverse.dropWhile isSpace).reverse

/-- Whether `sub` occurs in the character list as a contiguous block. -/
def occursIn (sub : List Char) : List Char → Bool
  | [] => sub.isEmpty
  | c :: cs => sub.isPrefixOf (c :: cs) || occursIn sub cs

/-- Go `strings.Contains`. -/
def Contains (s substr : String) : Bool :=
  occursIn substr.data s.data

/-! ## `config-client-go/types` -/

/-- One key/value entry of a group (`types.ModuleGroupConfiguration`). -/
structure Configuration where
  ConfKey : String
  ConfValue : String
deriving DecidableEq, Repr

/-- A tenant group (`types.ModuleGroup`). -/
structure ModuleGroup where
  ModuleID : Int
  GroupName : String
  Configurations : List Configuration
deriving DecidableEq, Repr

/-- The answer of `client.GetUTMConfig` (`types.ConfigurationSection`). -/
structure ConfigurationSection where
  ModuleActive : Bool
  ConfigurationGroups : List ModuleGroup
deriving DecidableEq, Repr

/-! ## Logger calls -/

/-- The logger method that was called: `Info`, `ErrorF`, `Fatal`, or `LogF` with its
numeric level. -/
inductive Level where
  | Info
  | ErrorF
  | Fatal
  | LogF (code : Nat)
deriving DecidableEq, Repr

/-- An argument of a logger call. -/
inductive Arg where
  | str (s : String)
  | time (t : Int)
deriving DecidableEq, Repr

/-- One call of `utils.Logger`. -/
structure LogEntry where
  level : Level
  format : String
  args : List Arg
deriving DecidableEq, Repr

/-- What one pass of the loop obtains from outside. -/
structure Tick where
  /-- the result of `utils.ConnectionChecker` -/
  connErr : Option String
  /-- the value of `time.Now().UTC()` -/
  now : Int
  /-- the result of `client.GetUTMConfig` -/
  config : Except String ConfigurationSection

/-- The inner loop of the goroutine body: `skip` is set at the first entry whose
`ConfValue` is empty after `strings.TrimSpace`. -/
def skip : List Configuration → Bool
  | [] => false
  | cnf :: rest => if TrimSpace cnf.ConfValue = "" then true else skip rest

/-- The tick interval, `5 * time.Minute`, in nanoseconds. -/
def delay : Int := 5 * 60 * 1000000000

/-! ## `aws/main.go` -/

namespace Aws

/-- A call `processor.PullLogs(startTime, endTime, group)`. -/
structure PullCall where
  startTime : Int
  endTime : Int
  group : ModuleGroup
deriving DecidableEq, Repr

/-- The record of one pass of the loop. -/
structure Cycle where
  /-- the window of the pass -/
  startTime : Int
  endTime : Int
  logs : List LogEntry
  pulls : List PullCall
  /-- the value of the loop variable `startTime` when the pass ends -/
  nextStart : Int
deriving DecidableEq, Repr

/-- Lines 32-34. -/
def connectionLogs (connErr : Option String) : List LogEntry :=
  match connErr with
  | some err => [⟨Level.ErrorF, "Failed to establish connection: %v", [Arg.str err]⟩]
  | none => []

/-- Lines 41-49: the two `if`s of the error branch. -/
def configErrorLogs (err : String) : List LogEntry :=
  (if Contains err "invalid character '<'" then
    [⟨Level.LogF 100, "error getting configuration of the AWS module: backend is not available", []⟩]
  else []) ++
  (if TrimSpace err ≠ "" then
    [⟨Level.ErrorF, "error getting configuration of the AWS module: %v", [Arg.str err]⟩]
  else [])

/-- Lines 56-71: the goroutine of one group; it logs and skips, or calls `PullLogs`. -/
def groupTask (startTime endTime : Int) (group : ModuleGroup) : List LogEntry × List PullCall :=
  if skip group.Configurations then
    ([⟨Level.LogF 100, "program not configured yet for group: %s", [Arg.str group.GroupName]⟩], [])
  else
    ([], [⟨startTime, endTime, group⟩])

/-- Lines 55-73: the fan-out over `moduleConfig.ConfigurationGroups`, recorded in
configuration order. -/
def fanOut (startTime endTime : Int) : List ModuleGroup → List LogEntry × List PullCall
  | [] => ([], [])
  | grp :: rest =>
    let r := groupTask startTime endTime grp
    let rs := fanOut startTime endTime rest
    (r.1 ++ rs.1, r.2 ++ rs.2)

/-- Lines 32-77: one pass of `for range ticker.C`. -/
def mainCycle (startTime : Int) (tick : Tick) : Cycle :=
  let endTime := tick.now
  let pre := connectionLogs tick.connErr ++
    [⟨Level.Info, "Syncing logs from %s to %s", [Arg.time startTime, Arg.time endTime]⟩]
  match tick.config with
  | .error err =>
    -- `continue`
    ⟨startTime, endTime, pre ++ configErrorLogs err, [], startTime⟩
  | .ok moduleConfig =>
    let r := if moduleConfig.ModuleActive then
        fanOut startTime endTime moduleConfig.ConfigurationGroups
      else ([], [])
    ⟨startTime, endTime,
      pre ++ r.1 ++ [⟨Level.Info, "sync completed from %v to %v, waiting 5 minutes",
        [Arg.time startTime, Arg.time endTime]⟩],
      r.2, endTime + 1⟩

/-- The loop run over a finite list of ticks. -/
def mainLoop : Int → List Tick → List Cycle
  | _, [] => []
  | startTime, tick :: rest =>
    let c := mainCycle startTime tick
    c :: mainLoop c.nextStart rest

/-- The whole of `main`, as its start-up log entries and the passes of its loop: the
fatal exit on a missing key or service name (no loop, `none`), otherwise the loop started
at `time.Now().UTC().Add(-delay)`.  `intKey` and `panelServ` are the values of
`configuration.GetInternalKey()` and `configuration.GetPanelServiceName()`, `now0` the
clock reading of line 29. -/
def main (intKey panelServ : String) (now0 : Int) (ticks : List Tick) :
    List LogEntry × Option (List Cycle) :=
  if intKey = "" ∨ panelServ = "" then
    ([⟨Level.Info, "Starting aws module...", []⟩,
      ⟨Level.Fatal, "Internal key or panel service name is not set. Exiting...", []⟩], none)
  else
    ([⟨Level.Info, "Starting aws module...", []⟩], some (mainLoop (now0 - delay) ticks))

end Aws

/-! ## `sophos/processor/pull.go` -/

namespace Sophos

/-- Go `Time.Unix`: whole seconds since the epoch, rounded down. -/
def Unix (t : Int) : Int := t / 1000000000

/-- The collaborators of `PullLogs` that are not part of the package state: the vendor
adapter (`getSophosCentralProcessor(group).getLogs`, answering `(logs, newNextKey)` or an
error) and the forwarder (`SendToLogstash`, answering an error or nothing). -/
structure Adapter where
  getLogs : Int → String → ModuleGroup → Except String (List String × String)
  SendToLogstash : List String → Option String

/-- What a goroutine can do to `nextKeysMu`, to `nextKeys` and to the collaborators of
`PullLogs`.  (`PullLogs` itself never produces `Lock` or `Unlock`.) -/
inductive Event where
  | RLock
  | RUnlock
  | Lock
  | Unlock
  | mapRead (key : Int)
  | mapWrite (key : Int) (val : String)
  | getLogs (unix : Int) (prevKey : String) (group : ModuleGroup)
  | SendToLogstash (logs : List String)
deriving DecidableEq, Repr

/-- The package-level variables `nextKeys` and `nextKeysMu` (`Lock` is never called in the
package, so the mutex is described by its number of readers), and the events so far. -/
structure Proc where
  nextKeys : Int → Option String
  readers : Nat
  trace : List Event

/-- The value of `nextKeys[key]`: the zero value `""` when the key is absent. -/
def Proc.get (p : Proc) (key : Int) : String := (p.nextKeys key).getD ""

/-- Line 17, `nextKeysMu.RLock()`. -/
def Proc.rlock (p : Proc) : Proc :=
  ⟨p.nextKeys, p.readers + 1, p.trace ++ [Event.RLock]⟩

/-- Line 18, the map read of `prevKey := nextKeys[group.ModuleID]`. -/
def Proc.read (p : Proc) (key : Int) : Proc :=
  ⟨p.nextKeys, p.readers, p.trace ++ [Event.mapRead key]⟩

/-- Line 19, `nextKeysMu.RUnlock()`. -/
def Proc.runlock (p : Proc) : Proc :=
  ⟨p.nextKeys, p.readers - 1, p.trace ++ [Event.RUnlock]⟩

/-- Line 23, the call of `agent.getLogs`. -/
def Proc.fetch (p : Proc) (unix : Int) (prevKey : String) (group : ModuleGroup) : Proc :=
  ⟨p.nextKeys, p.readers, p.trace ++ [Event.getLogs unix prevKey group]⟩

/-- Line 28, `nextKeys[group.ModuleID] = newNextKey`. -/
def Proc.write (p : Proc) (key : Int) (val : String) : Proc :=
  ⟨fun k => if k = key then some val else p.nextKeys k, p.readers,
    p.trace ++ [Event.mapWrite key val]⟩

/-- Line 30, the call of `SendToLogstash`. -/
def Proc.send (p : Proc) (logs : List String) : Proc :=
  ⟨p.nextKeys, p.readers, p.trace ++ [Event.SendToLogstash logs]⟩

/-- The function `PullLogs` run on its own, from entry to `return`. -/
def PullLogs (ad : Adapter) (group : ModuleGroup) (startTime : Int) (p : Proc) :
    Proc × Option String :=
  let p := p.rlock
  let prevKey := p.get group.ModuleID
  let p := p.read group.ModuleID
  let p := p.runlock
  let p := p.fetch (Unix startTime) prevKey group
  match ad.getLogs (Unix startTime) prevKey group with
  | .error logErr => (p, some logErr)
  | .ok (logs, newNextKey) =>
    let p := p.write group.ModuleID newNextKey
    let p := p.send logs
    match ad.SendToLogstash logs with
    | some sendErr => (p, some sendErr)
    | none => (p, none)

/-! ### The goroutines of one pass

Two descriptions of the goroutines follow.  In `step` every access to `nextKeys` is one
step, so it describes a pass with a single goroutine and the executions in which the
accesses of different goroutines do not overlap.  In `raceStep` the map assignment of line
28, which is made without the mutex, has a beginning and an end, and an access to
`nextKeys` that falls between them makes the Go runtime end the process
(`fatal error: concurrent map read and map write`, `concurrent map writes`). -/

/-- Where a goroutine stands inside `PullLogs`: the statement it executes next, with the
local variables that are live there. -/
inductive Pc where
  | rlock
  | read
  | runlock (prevKey : String)
  | fetch (prevKey : String)
  | store (logs : List String) (newNextKey : String)
  | send (logs : List String)
  | done (err : Option String)
deriving DecidableEq, Repr

/-- The state of a pass while its goroutines run: the package state and the position of
every goroutine (numbered as in `groups`). -/
structure Machine where
  proc : Proc
  pcs : Nat → Pc

/-- Goroutine `i` executes its next statement, every access to `nextKeys` being one
step. -/
def step (ad : Adapter) (startTime : Int) (groups : List ModuleGroup) (i : Nat)
    (m : Machine) : Machine :=
  match groups[i]? with
  | none => m
  | some group =>
    match m.pcs i with
    | .rlock => ⟨m.proc.rlock, Function.update m.pcs i .read⟩
    | .read =>
      ⟨m.proc.read group.ModuleID, Function.update m.pcs i (.runlock (m.proc.get group.ModuleID))⟩
    | .runlock prevKey => ⟨m.proc.runlock, Function.update m.pcs i (.fetch prevKey)⟩
    | .fetch prevKey =>
      match ad.getLogs (Unix startTime) prevKey group with
      | .error logErr =>
        ⟨m.proc.fetch (Unix startTime) prevKey group, Function.update m.pcs i (.done (some logErr))⟩
      | .ok (logs, newNextKey) =>
        ⟨m.proc.fetch (Unix startTime) prevKey group, Function.update m.pcs i (.store logs newNextKey)⟩
    | .store logs newNextKey =>
      ⟨m.proc.write group.ModuleID newNextKey, Function.update m.pcs i (.send logs)⟩
    | .send logs =>
      ⟨m.proc.send logs, Function.update m.pcs i (.done (ad.SendToLogstash logs))⟩
    | .done _ => m

/-- The goroutines execute one statement each in the order the schedule names them. -/
def runSchedule (ad : Adapter) (startTime : Int) (groups : List ModuleGroup) :
    List Nat → Machine → Machine
  | [], m => m
  | i :: rest, m => runSchedule ad startTime groups rest (step ad startTime groups i m)

/-- Goroutine `i` runs to its `return` (no path through `PullLogs` has more than six
statements). -/
def runTask (ad : Adapter) (startTime : Int) (groups : List ModuleGroup) (i : Nat)
    (m : Machine) : Machine :=
  (step ad startTime groups i)^[6] m

/-- The barrier `wg.Wait()`: every goroutine that has not returned yet runs to its
`return`. -/
def waitAll (ad : Adapter) (startTime : Int) (groups : List ModuleGroup) (m : Machine) :
    Machine :=
  (List.range groups.length).foldl (fun m i => runTask ad startTime groups i m) m

/-- The goroutines of `groups` from `go func` to `wg.Wait()`, interleaved as `schedule`
says. -/
def runGroups (ad : Adapter) (startTime : Int) (groups : List ModuleGroup)
    (schedule : List Nat) (p : Proc) : Machine :=
  waitAll ad startTime groups (runSchedule ad startTime groups schedule ⟨p, fun _ => .rlock⟩)

/-- Where a goroutine stands inside `PullLogs` when the map assignment of line 28 is
taken in two halves: `storing` is the goroutine inside the assignment. -/
inductive RacePc where
  | rlock
  | read
  | runlock (prevKey : String)
  | fetch (prevKey : String)
  | store (logs : List String) (newNextKey : String)
  | storing (logs : List String) (newNextKey : String)
  | send (logs : List String)
  | done (err : Option String)
deriving DecidableEq, Repr

/-- The state of a pass while its goroutines run: the package state, whether a map
assignment to `nextKeys` is in progress (the `hashWriting` flag of the runtime), whether
the runtime has ended the process, and the position of every goroutine. -/
structure RaceMachine where
  proc : Proc
  writing : Bool
  aborted : Bool
  pcs : Nat → RacePc

/-- Goroutine `i` executes its next statement.  The map read of line 18 and the beginning
of the map assignment of line 28 end the process when an assignment is in progress;
nothing runs once the process has ended. -/
def raceStep (ad : Adapter) (startTime : Int) (groups : List ModuleGroup) (i : Nat)
    (m : RaceMachine) : RaceMachine :=
  if m.aborted then m
  else
    match groups[i]? with
    | none => m
    | some group =>
      match m.pcs i with
      | .rlock => ⟨m.proc.rlock, m.writing, false, Function.update m.pcs i .read⟩
      | .read =>
        if m.writing then ⟨m.proc, m.writing, true, m.pcs⟩
        else ⟨m.proc.read group.ModuleID, m.writing, false,
          Function.update m.pcs i (.runlock (m.proc.get group.ModuleID))⟩
      | .runlock prevKey =>
        ⟨m.proc.runlock, m.writing, false, Function.update m.pcs i (.fetch prevKey)⟩
      | .fetch prevKey =>
        match ad.getLogs (Unix startTime) prevKey group with
        | .error logErr =>
          ⟨m.proc.fetch (Unix startTime) prevKey group, m.writing, false,
            Function.update m.pcs i (.done (some logErr))⟩
        | .ok (logs, newNextKey) =>
          ⟨m.proc.fetch (Unix startTime) prevKey group, m.writing, false,
            Function.update m.pcs i (.store logs newNextKey)⟩
      | .store logs newNextKey =>
        if m.writing then ⟨m.proc, m.writing, true, m.pcs⟩
        else ⟨m.proc, true, false, Function.update m.pcs i (.storing logs newNextKey)⟩
      | .storing logs newNextKey =>
        ⟨m.proc.write group.ModuleID newNextKey, false, false,
          Function.update m.pcs i (.send logs)⟩
      | .send logs =>
        ⟨m.proc.send logs, m.writing, false,
          Function.update m.pcs i (.done (ad.SendToLogstash logs))⟩
      | .done _ => m

/-- The goroutines execute one statement each in the order the schedule names them. -/
def raceSchedule (ad : Adapter) (startTime : Int) (groups : List ModuleGroup) :
    List Nat → RaceMachine → RaceMachine
  | [], m => m
  | i :: rest, m => raceSchedule ad startTime groups rest (raceStep ad startTime groups i m)

/-- Goroutine `i` runs to its `return` (no path through `PullLogs` has more than seven
steps). -/
def raceTask (ad : Adapter) (startTime : Int) (groups : List ModuleGroup) (i : Nat)
    (m : RaceMachine) : RaceMachine :=
  (raceStep ad startTime groups i)^[7] m

/-- The barrier `wg.Wait()`: every goroutine that has not returned yet runs to its
`return`. -/
def raceWait (ad : Adapter) (startTime : Int) (groups : List ModuleGroup) (m : RaceMachine) :
    RaceMachine :=
  (List.range groups.length).foldl (fun m i => raceTask ad startTime groups i m) m

/-- The goroutines of `groups` from `go func` to `wg.Wait()`, interleaved as `schedule`
says, with the map assignment in two halves. -/
def raceGroups (ad : Adapter) (startTime : Int) (groups : List ModuleGroup)
    (schedule : List Nat) (p : Proc) : RaceMachine :=
  raceWait ad startTime groups
    (raceSchedule ad startTime groups schedule ⟨p, false, false, fun _ => .rlock⟩)

/-! ## `sophos/main.go` -/

/-- The record of one pass of the loop. -/
structure Cycle where
  /-- the window of the pass -/
  startTime : Int
  endTime : Int
  logs : List LogEntry
  /-- the groups for which `processor.PullLogs(group, startTime)` was called -/
  pulls : List ModuleGroup
  /-- the value of the loop variable `startTime` when the pass ends -/
  nextStart : Int
  /-- the state of package `processor` when the pass ends -/
  proc : Proc

/-- Lines 32-34. -/
def connectionLogs (connErr : Option String) : List LogEntry :=
  match connErr with
  | some err => [⟨Level.ErrorF, "External connection failure detected: %v", [Arg.str err]⟩]
  | none => []

/-- Lines 43-51: the two `if`s of the error branch. -/
def configErrorLogs (err : String) : List LogEntry :=
  (if Contains err "invalid character '<'" then
    [⟨Level.LogF 100, "error getting configuration of the SOPHOS module: backend is not available", []⟩]
  else []) ++
  (if TrimSpace err ≠ "" then
    [⟨Level.ErrorF, "error getting configuration of the SOPHOS module: %v", [Arg.str err]⟩]
  else [])

/-- Lines 58-75: what the goroutine of one group decides; it logs and skips, or calls
`PullLogs`. -/
def groupTask (group : ModuleGroup) : List LogEntry × List ModuleGroup :=
  if skip group.Configurations then
    ([⟨Level.LogF 100, "program not configured yet for group: %s", [Arg.str group.GroupName]⟩], [])
  else
    ([], [group])

/-- Lines 57-76: the fan-out over `moduleConfig.ConfigurationGroups`, recorded in
configuration order. -/
def fanOut : List ModuleGroup → List LogEntry × List ModuleGroup
  | [] => ([], [])
  | grp :: rest =>
    let r := groupTask grp
    let rs := fanOut rest
    (r.1 ++ rs.1, r.2 ++ rs.2)

/-- Lines 32-80: one pass of `for range ticker.C`; `schedule` is the interleaving of the
goroutines of the pass. -/
def mainCycle (ad : Adapter) (startTime : Int) (p : Proc) (tick : Tick)
    (schedule : List Nat) : Cycle :=
  let endTime := tick.now
  let pre := connectionLogs tick.connErr ++
    [⟨Level.Info, "Syncing logs from %s to %s", [Arg.time startTime, Arg.time endTime]⟩]
  match tick.config with
  | .error err =>
    -- `continue`
    ⟨startTime, endTime, pre ++ configErrorLogs err, [], startTime, p⟩
  | .ok moduleConfig =>
    let r := if moduleConfig.ModuleActive then fanOut moduleConfig.ConfigurationGroups
      else ([], [])
    let m := runGroups ad startTime r.2 schedule p
    ⟨startTime, endTime,
      pre ++ r.1 ++ [⟨Level.Info, "sync completed from %v to %v, waiting 5 minutes",
        [Arg.time startTime, Arg.time endTime]⟩],
      r.2, endTime + 1, m.proc⟩

/-- Lines 32-80 with the goroutines run by `raceGroups`: `none` when the runtime ends the
process during the pass, otherwise the record of the pass. -/
def mainCycleRace (ad : Adapter) (startTime : Int) (p : Proc) (tick : Tick)
    (schedule : List Nat) : Option Cycle :=
  let endTime := tick.now
  let pre := connectionLogs tick.connErr ++
    [⟨Level.Info, "Syncing logs from %s to %s", [Arg.time startTime, Arg.time endTime]⟩]
  match tick.config with
  | .error err =>
    -- `continue`
    some ⟨startTime, endTime, pre ++ configErrorLogs err, [], startTime, p⟩
  | .ok moduleConfig =>
    let r := if moduleConfig.ModuleActive then fanOut moduleConfig.ConfigurationGroups
      else ([], [])
    let m := raceGroups ad startTime r.2 schedule p
    if m.aborted then none
    else
      some ⟨startTime, endTime,
        pre ++ r.1 ++ [⟨Level.Info, "sync completed from %v to %v, waiting 5 minutes",
          [Arg.time startTime, Arg.time endTime]⟩],
        r.2, endTime + 1, m.proc⟩

/-- The loop run over a finite list of ticks, each with the interleaving of its pass. -/
def mainLoop (ad : Adapter) : Int → Proc → List (Tick × List Nat) → List Cycle
  | _, _, [] => []
  | startTime, p, (tick, schedule) :: rest =>
    let c := mainCycle ad startTime p tick schedule
    c :: mainLoop ad c.nextStart c.proc rest

/-- The package state at program start: `nextKeys = make(map[int]string)`. -/
def Proc.init : Proc := ⟨fun _ => none, 0, []⟩

/-- The whole of `main`, as its start-up log entries and the passes of its loop: the
fatal exit on a missing key or service name (no loop, `none`), otherwise the loop started
at `time.Now().UTC().Add(-delay)` with an empty `nextKeys`. -/
def main (ad : Adapter) (intKey panelServ : String) (now0 : Int)
    (ticks : List (Tick × List Nat)) : List LogEntry × Option (List Cycle) :=
  if intKey = "" ∨ panelServ = "" then
    ([⟨Level.Info, "Starting sophos central module...", []⟩,
      ⟨Level.Fatal, "Internal key or panel service name is not set. Exiting...", []⟩], none)
  else
    ([⟨Level.Info, "Starting sophos central module...", []⟩],
      some (mainLoop ad (now0 - delay) Proc.init ticks))

end Sophos

/-! ## `log-auth-proxy/config/constants.go` -/

namespace Proxy

/-- The constant `AS400`. -/
def AS400 : String := "as_400"

/-- The values of the `LogType` constant block, in source order. -/
def logTypes : List String :=
  ["beats_linux_agent", "beats_apache_module", "beats_apache2_module", "beats_auditd_module",
   "beats_elasticsearch_module", "beats_kafka_module", "beats_kibana_module",
   "beats_logstash_module", "beats_mongodb_module", "beats_mysql_module", "beats_nginx_module",
   "beats_osquery_module", "beats_postgresql_module", "beats_redis_module", "beats_iis_module",
   "macos_logs", "vmware", "cisco_asa", "cisco_meraki", "cisco_firepower", "cisco_switch",
   "antivirus_kaspersky", "antivirus_eset", "antivirus_sentinel_one", "firewall_fortinet",
   "firewall_sophos", "cloud_azure", "cloud_google", "firewall_ubuntu", "firewall_mikrotik",
   "firewall_paloalto", "firewall_sonicwall", "antivirus_deceptivebytes", "web_hook_github",
   "antivirus_bitdefender", "beats_windows_agent", "beats_traefik_module", "beats_nats_module",
   "beats_haproxy_module", "json_input", "syslog", "generic", "netflow", "ibm_aix", "as_400",
   "firewall_pfsense", "firewall_fortiweb", "suricata"]

/-- The function `ValidateConnectorType`: a `switch` with the single case `AS400`. -/
def ValidateConnectorType (typ : String) : String :=
  if typ = AS400 then "collector" else "agent"

end Proxy

/-! ## Observations on traces -/

/-- The batches handed to `SendToLogstash`, in order. -/
def Sophos.forwarded : List Sophos.Event → List (List String)
  | [] => []
  | .SendToLogstash logs :: rest => logs :: Sophos.forwarded rest
  | _ :: rest => Sophos.forwarded rest

/-- The calls of `getLogs`, in order, as `(startTime.Unix(), prevKey, group)`. -/
def Sophos.fetches : List Sophos.Event → List (Int × String × ModuleGroup)
  | [] => []
  | .getLogs unix prevKey group :: rest => (unix, prevKey, group) :: Sophos.fetches rest
  | _ :: rest => Sophos.fetches rest

/-- Whether the goroutine has returned. -/
def Sophos.Pc.isDone : Sophos.Pc → Bool
  | .done _ => true
  | _ => false

/-- The number of statements of `PullLogs` the goroutine has behind it (six once it has
returned). -/
def Sophos.Pc.rank : Sophos.Pc → Nat
  | .rlock => 0
  | .read => 1
  | .runlock _ => 2
  | .fetch _ => 3
  | .store _ _ => 4
  | .send _ => 5
  | .done _ => 6

/-- Whether the goroutine has returned. -/
def Sophos.RacePc.isDone : Sophos.RacePc → Bool
  | .done _ => true
  | _ => false

/-- The number of steps of `PullLogs` the goroutine has behind it (seven once it has
returned). -/
def Sophos.RacePc.rank : Sophos.RacePc → Nat
  | .rlock => 0
  | .read => 1
  | .runlock _ => 2
  | .fetch _ => 3
  | .store _ _ => 4
  | .storing _ _ => 5
  | .send _ => 6
  | .done _ => 7

/-- Whether the goroutine is inside the map assignment. -/
def Sophos.RacePc.isStoring : Sophos.RacePc → Bool
  | .storing _ _ => true
  | _ => false

/-- The positions a goroutine can be at when its `getLogs` call, made with the checkpoint
`prev`, is going to fail: it holds `prev` as `prevKey` and never reaches the map write. -/
def Sophos.RacePc.beforeFailure (prev : String) : Sophos.RacePc → Prop
  | .rlock => True
  | .read => True
  | .runlock prevKey => prevKey = prev
  | .fetch prevKey => prevKey = prev
  | .store _ _ => False
  | .storing _ _ => False
  | .send _ => False
  | .done _ => True

/-- The positions of the only goroutine of a key, with the current map entry `cur` of the
key, when its `getLogs` call, made with the checkpoint `prev`, is going to answer the
token `t`: the entry is the old one (`old`) up to the end of the map assignment and `t`
from then on. -/
def Sophos.RacePc.towardsToken (prev : String) (old : Option String) (t : String)
    (cur : Option String) : Sophos.RacePc → Prop
  | .rlock => cur = old
  | .read => cur = old
  | .runlock prevKey => prevKey = prev ∧ cur = old
  | .fetch prevKey => prevKey = prev ∧ cur = old
  | .store _ newNextKey => newNextKey = t ∧ cur = old
  | .storing _ newNextKey => newNextKey = t ∧ cur = old
  | .send _ => cur = some t
  | .done _ => cur = some t

/-- The windows of consecutive passes that end at the instants `ends`, the first starting
at `start` and every other one nanosecond after the end of the pass before it. -/
def windowsFrom (start : Int) : List Int → List (Int × Int)
  | [] => []
  | e :: rest => (start, e) :: windowsFrom (e + 1) rest

/-- How a goroutine holds `nextKeysMu`. -/
inductive Held where
  | no
  | read
  | write
deriving DecidableEq, Repr

/-- The locking rule for the events of one goroutine, the goroutine holding the mutex as
`held` when they begin: every map read happens while the goroutine holds the read or the
write lock, and every map write happens while it holds the write lock. -/
def lockDisciplined : Held → List Sophos.Event → Bool
  | _, [] => true
  | _, .RLock :: rest => lockDisciplined .read rest
  | _, .RUnlock :: rest => lockDisciplined .no rest
  | _, .Lock :: rest => lockDisciplined .write rest
  | _, .Unlock :: rest => lockDisciplined .no rest
  | held, .mapRead _ :: rest => (held != .no) && lockDisciplined held rest
  | held, .mapWrite _ _ :: rest => (held == .write) && lockDisciplined held rest
  | held, _ :: rest => lockDisciplined held rest

/-- The dispatch rule in the words of the specification: nothing when the fetch failed or
the integration is disabled, otherwise the groups all of whose entries have a value that is
not empty after trimming white space. -/
def dispatchRule : Except String ConfigurationSection → List ModuleGroup
  | .error _ => []
  | .ok cfg =>
    if cfg.ModuleActive then
      cfg.ConfigurationGroups.filter
        (fun g => ∀ cnf ∈ g.Configurations, TrimSpace cnf.ConfValue ≠ "")
    else []

/-! ## Fixtures -/

/-- A cursor-continued vendor fixture: the first page is `["e1", "e2"]` with token `"p2"`,
the page after `"p2"` is `["e3"]` with token `"p3"`; group 13 is refused; the forwarder
refuses the batch `["bad"]`. -/
def fixture : Sophos.Adapter where
  getLogs := fun _ prevKey group =>
    if group.ModuleID = 13 then .error "401 Unauthorized"
    else if prevKey = "" then .ok (["e1", "e2"], "p2")
    else if prevKey = "p2" then .ok (["e3"], "p3")
    else if prevKey = "bad" then .ok (["bad"], "p9")
    else .ok ([], prevKey)
  SendToLogstash := fun logs => if logs = ["bad"] then some "logstash unreachable" else none

/-- A configured group with the given module id. -/
def tenant (id : Int) : ModuleGroup := ⟨id, "tenant", [⟨"api_key", "secret"⟩]⟩

/-! ## Lemmas on the string functions -/

theorem trimSpace_eq_empty_iff (s : String) :
    TrimSpace s = "" ↔ ∀ c ∈ s.data, isSpace c = true := by
  unfold TrimSpace
  rw [show ("" : String) = String.mk [] from rfl, String.ext_iff]
  show ((s.data.dropWhile isSpace).reverse.dropWhile isSpace).reverse = [] ↔ _
  rw [List.reverse_eq_nil_iff, List.dropWhile_eq_nil_iff]
  constructor
  · intro h c hc
    by_contra hne
    have hne' : s.data.dropWhile isSpace ≠ [] := by
      intro h0
      rw [List.dropWhile_eq_nil_iff] at h0
      exact hne (h0 c hc)
    have hhead := List.head_dropWhile_not isSpace s.data hne'
    have hmem : (s.data.dropWhile isSpace).head hne' ∈ (s.data.dropWhile isSpace).reverse :=
      List.mem_reverse.mpr (List.head_mem hne')
    rw [h _ hmem] at hhead
    exact absurd hhead (by simp)
  · intro h c hc
    have hc' : c ∈ s.data.dropWhile isSpace := List.mem_reverse.mp hc
    exact h c ((List.dropWhile_sublist _).subset hc')

theorem occursIn_mem (sub l : List Char) (h : occursIn sub l = true) :
    ∀ c ∈ sub, c ∈ l := by
  induction l with
  | nil =>
    simp only [occursIn, List.isEmpty_iff] at h
    subst h
    simp
  | cons a l ih =>
    simp only [occursIn, Bool.or_eq_true] at h
    intro c hc
    rcases h with h | h
    · exact (List.isPrefixOf_iff_prefix.mp h).subset hc
    · exact List.mem_cons_of_mem _ (ih h c hc)

theorem contains_marker_not_blank (err : String)
    (h : Contains err "invalid character '<'" = true) : TrimSpace err ≠ "" := by
  intro hb
  rw [trimSpace_eq_empty_iff] at hb
  have hi : 'i' ∈ err.data := occursIn_mem _ _ h 'i' (by decide)
  exact absurd (hb 'i' hi) (by decide)

theorem skip_eq_false_iff (cs : List Configuration) :
    skip cs = false ↔ ∀ cnf ∈ cs, TrimSpace cnf.ConfValue ≠ "" := by
  induction cs with
  | nil => simp [skip]
  | cons c cs ih =>
    by_cases hc : TrimSpace c.ConfValue = "" <;> simp [skip, hc, ih]

theorem aws_fanOut_pulls (startTime endTime : Int) (groups : List ModuleGroup) :
    (Aws.fanOut startTime endTime groups).2 =
      (groups.filter (fun g => ∀ cnf ∈ g.Configurations, TrimSpace cnf.ConfValue ≠ "")).map
        (fun g => ⟨startTime, endTime, g⟩) := by
  induction groups with
  | nil => simp [Aws.fanOut]
  | cons g gs ih =>
    by_cases hs : skip g.Configurations = true
    · have hn : ¬ ∀ cnf ∈ g.Configurations, TrimSpace cnf.ConfValue ≠ "" := by
        rw [← skip_eq_false_iff]; simp [hs]
      simp [Aws.fanOut, Aws.groupTask, hs, ih, List.filter_cons, hn]
    · have hs' : skip g.Configurations = false := by simpa using hs
      have hy : ∀ cnf ∈ g.Configurations, TrimSpace cnf.ConfValue ≠ "" :=
        (skip_eq_false_iff _).mp hs'
      simp only [Aws.fanOut, Aws.groupTask, hs', ih, List.filter_cons, decide_eq_true hy]
      simp

theorem sophos_fanOut_pulls (groups : List ModuleGroup) :
    (Sophos.fanOut groups).2 =
      groups.filter (fun g => ∀ cnf ∈ g.Configurations, TrimSpace cnf.ConfValue ≠ "") := by
  induction groups with
  | nil => simp [Sophos.fanOut]
  | cons g gs ih =>
    by_cases hs : skip g.Configurations = true
    · have hn : ¬ ∀ cnf ∈ g.Configurations, TrimSpace cnf.ConfValue ≠ "" := by
        rw [← skip_eq_false_iff]; simp [hs]
      simp [Sophos.fanOut, Sophos.groupTask, hs, ih, List.filter_cons, hn]
    · have hs' : skip g.Configurations = false := by simpa using hs
      have hy : ∀ cnf ∈ g.Configurations, TrimSpace cnf.ConfValue ≠ "" :=
        (skip_eq_false_iff _).mp hs'
      simp only [Sophos.fanOut, Sophos.groupTask, hs', ih, List.filter_cons, decide_eq_true hy]
      simp

theorem step_no_groups (ad : Sophos.Adapter) (startTime : Int) (i : Nat) (m : Sophos.Machine) :
    Sophos.step ad startTime [] i m = m := by
  simp [Sophos.step]

theorem runGroups_no_groups (ad : Sophos.Adapter) (startTime : Int) (schedule : List Nat)
    (p : Sophos.Proc) : (Sophos.runGroups ad startTime [] schedule p).proc = p := by
  have h : ∀ (m : Sophos.Machine), Sophos.runSchedule ad startTime [] schedule m = m := by
    induction schedule with
    | nil => intro m; rfl
    | cons i rest ih => intro m; simp [Sophos.runSchedule, step_no_groups, ih]
  simp [Sophos.runGroups, Sophos.waitAll, h]

/-! ## The configuration fetch -/

/-- C2: in a pass of the aws or sophos loop whose configuration fetch fails, no `PullLogs`
call is made, the loop variable `startTime` keeps its value (and the sophos checkpoints
are untouched), so the loop goes on from the same `startTime` and the next pass differs
only in the `endTime` it samples. -/
theorem config_failure_keeps_start (ad : Sophos.Adapter) (startTime : Int) (p : Sophos.Proc)
    (tick next : Tick) (schedule schedule2 : List Nat) (rest : List Tick)
    (rest2 : List (Tick × List Nat)) (err : String) (h : tick.config = .error err) :
    (Aws.mainCycle startTime tick).pulls = [] ∧
    (Aws.mainCycle startTime tick).nextStart = startTime ∧
    Aws.mainLoop startTime (tick :: next :: rest) =
      Aws.mainCycle startTime tick :: Aws.mainLoop startTime (next :: rest) ∧
    (Aws.mainCycle startTime next).startTime = startTime ∧
    (Aws.mainCycle startTime next).endTime = next.now ∧
    (Sophos.mainCycle ad startTime p tick schedule).pulls = [] ∧
    (Sophos.mainCycle ad startTime p tick schedule).nextStart = startTime ∧
    (Sophos.mainCycle ad startTime p tick schedule).proc = p ∧
    Sophos.mainLoop ad startTime p ((tick, schedule) :: (next, schedule2) :: rest2) =
      Sophos.mainCycle ad startTime p tick schedule ::
        Sophos.mainLoop ad startTime p ((next, schedule2) :: rest2) ∧
    (Sophos.mainCycle ad startTime p next schedule2).startTime = startTime ∧
    (Sophos.mainCycle ad startTime p next schedule2).endTime = next.now := by
  have ha : (Aws.mainCycle startTime tick).nextStart = startTime := by
    simp [Aws.mainCycle, h]
  have hs : (Sophos.mainCycle ad startTime p tick schedule).nextStart = startTime := by
    simp [Sophos.mainCycle, h]
  have hp : (Sophos.mainCycle ad startTime p tick schedule).proc = p := by
    simp [Sophos.mainCycle, h]
  refine ⟨by simp [Aws.mainCycle, h], ha, ?_, ?_, ?_, by simp [Sophos.mainCycle, h], hs, hp,
    ?_, ?_, ?_⟩
  · rw [Aws.mainLoop, ha]
  · unfold Aws.mainCycle; split <;> rfl
  · unfold Aws.mainCycle; split <;> rfl
  · rw [Sophos.mainLoop, hs, hp]
  · unfold Sophos.mainCycle; split <;> rfl
  · unfold Sophos.mainCycle; split <;> rfl

theorem config_failure_keeps_start_witness :
    (⟨none, 300, .error "connection refused"⟩ : Tick).config = .error "connection refused" ∧
    (Aws.mainCycle 0 ⟨none, 300, .error "connection refused"⟩).pulls = [] ∧
    (Aws.mainCycle 0 ⟨none, 300, .error "connection refused"⟩).nextStart = 0 ∧
    (Sophos.mainCycle fixture 0 Sophos.Proc.init ⟨none, 300, .error "connection refused"⟩
      [0, 1]).pulls = [] ∧
    (Sophos.mainCycle fixture 0 Sophos.Proc.init ⟨none, 300, .error "connection refused"⟩
      [0, 1]).nextStart = 0 ∧
    (Sophos.mainCycle fixture 0 Sophos.Proc.init ⟨none, 600, .ok ⟨true, [tenant 7]⟩⟩
      []).startTime = 0 :=
  have h := config_failure_keeps_start fixture 0 Sophos.Proc.init
    ⟨none, 300, .error "connection refused"⟩ ⟨none, 600, .ok ⟨true, [tenant 7]⟩⟩ [0, 1] [] [] []
    "connection refused" rfl
  ⟨rfl, h.1, h.2.1, h.2.2.2.2.2.1, h.2.2.2.2.2.2.1, h.2.2.2.2.2.2.2.2.2.1⟩

/-- C3 as stated fails: a pass whose configuration reports `ModuleActive = false` makes
no `PullLogs` call but leaves the loop with `startTime = endTime + 1`, not with the
`startTime` it began with. -/
theorem disabled_module_counterexample :
    (⟨none, 300, .ok ⟨false, [tenant 7]⟩⟩ : Tick).config = .ok ⟨false, [tenant 7]⟩ ∧
    (Aws.mainCycle 0 ⟨none, 300, .ok ⟨false, [tenant 7]⟩⟩).pulls = [] ∧
    (Aws.mainCycle 0 ⟨none, 300, .ok ⟨false, [tenant 7]⟩⟩).nextStart = 301 ∧
    (Aws.mainCycle 0 ⟨none, 300, .ok ⟨false, [tenant 7]⟩⟩).nextStart ≠ 0 ∧
    (Sophos.mainCycle fixture 0 Sophos.Proc.init ⟨none, 300, .ok ⟨false, [tenant 7]⟩⟩
      []).nextStart = 301 ∧
    (Sophos.mainCycle fixture 0 Sophos.Proc.init ⟨none, 300, .ok ⟨false, [tenant 7]⟩⟩
      []).nextStart ≠ 0 := by
  refine ⟨rfl, ?_, ?_, ?_, ?_, ?_⟩ <;> decide

/-- C3, amended: in a pass of the aws or sophos loop whose configuration fetch succeeds
with `ModuleActive = false`, no `PullLogs` call is made (and the sophos checkpoints are
untouched), and the window is advanced as in every pass with a successful fetch: the next
pass starts from this pass's `endTime + 1ns`. -/
theorem disabled_module_advances (ad : Sophos.Adapter) (startTime : Int) (p : Sophos.Proc)
    (tick : Tick) (schedule : List Nat) (cfg : ConfigurationSection)
    (h : tick.config = .ok cfg) (hoff : cfg.ModuleActive = false) :
    (Aws.mainCycle startTime tick).pulls = [] ∧
    (Aws.mainCycle startTime tick).nextStart = tick.now + 1 ∧
    (Sophos.mainCycle ad startTime p tick schedule).pulls = [] ∧
    (Sophos.mainCycle ad startTime p tick schedule).nextStart = tick.now + 1 ∧
    (Sophos.mainCycle ad startTime p tick schedule).proc = p := by
  refine ⟨by simp [Aws.mainCycle, h, hoff], by simp [Aws.mainCycle, h], by
    simp [Sophos.mainCycle, h, hoff], by simp [Sophos.mainCycle, h], ?_⟩
  simp [Sophos.mainCycle, h, hoff, runGroups_no_groups]

theorem disabled_module_advances_witness :
    (⟨none, 300, .ok ⟨false, [tenant 7]⟩⟩ : Tick).config = .ok ⟨false, [tenant 7]⟩ ∧
    (Aws.mainCycle 0 ⟨none, 300, .ok ⟨false, [tenant 7]⟩⟩).pulls = [] ∧
    (Aws.mainCycle 0 ⟨none, 300, .ok ⟨false, [tenant 7]⟩⟩).nextStart = 300 + 1 ∧
    (Sophos.mainCycle fixture 0 Sophos.Proc.init ⟨none, 300, .ok ⟨false, [tenant 7]⟩⟩
      [0]).nextStart = 300 + 1 :=
  have h := disabled_module_advances fixture 0 Sophos.Proc.init
    ⟨none, 300, .ok ⟨false, [tenant 7]⟩⟩ [0] ⟨false, [tenant 7]⟩ rfl rfl
  ⟨rfl, h.1, h.2.1, h.2.2.2.1⟩

theorem aws_mainCycle_pulls (startTime : Int) (tick : Tick) :
    (Aws.mainCycle startTime tick).pulls =
      (dispatchRule tick.config).map (fun g => ⟨startTime, tick.now, g⟩) := by
  unfold Aws.mainCycle dispatchRule
  cases tick.config with
  | error e => rfl
  | ok cfg =>
    by_cases hon : cfg.ModuleActive = true
    · simp only [hon, if_true]
      exact aws_fanOut_pulls startTime tick.now cfg.ConfigurationGroups
    · simp [hon]

theorem sophos_mainCycle_pulls (ad : Sophos.Adapter) (startTime : Int) (p : Sophos.Proc)
    (tick : Tick) (schedule : List Nat) :
    (Sophos.mainCycle ad startTime p tick schedule).pulls = dispatchRule tick.config := by
  unfold Sophos.mainCycle dispatchRule
  cases tick.config with
  | error e => rfl
  | ok cfg =>
    by_cases hon : cfg.ModuleActive = true
    · simp only [hon, if_true]
      exact sophos_fanOut_pulls cfg.ConfigurationGroups
    · simp [hon]

theorem aws_mainLoop_pulls (ticks : List Tick) : ∀ startTime : Int,
    (Aws.mainLoop startTime ticks).map (fun c => c.pulls.map (fun call => call.group)) =
      ticks.map (fun t => dispatchRule t.config) := by
  induction ticks with
  | nil => intro _; rfl
  | cons t ts ih =>
    intro startTime
    simp only [Aws.mainLoop, List.map_cons, ih, aws_mainCycle_pulls, List.map_map]
    congr 1
    exact List.map_id _

theorem sophos_mainLoop_pulls (ad : Sophos.Adapter) (ticks : List (Tick × List Nat)) :
    ∀ (startTime : Int) (p : Sophos.Proc),
    (Sophos.mainLoop ad startTime p ticks).map (fun c => c.pulls) =
      ticks.map (fun t => dispatchRule t.1.config) := by
  induction ticks with
  | nil => intro _ _; rfl
  | cons t ts ih =>
    intro startTime p
    obtain ⟨tick, schedule⟩ := t
    simp only [Sophos.mainLoop, List.map_cons, ih, sophos_mainCycle_pulls]

/-- C6: in a pass of the aws or sophos loop whose configuration is active, whatever the
loop variable, the checkpoints and the interleaving are, the `PullLogs` calls of the pass
are exactly one call, with the window of the pass, for every group of
`ConfigurationGroups` all of whose `Configurations` have a `ConfValue` that is non-empty
after `strings.TrimSpace`; a group with a blank entry gets no call.  In every run of the
loop the calls of each pass are those the rule gives for the configuration fetched in that
pass: nothing is carried over from earlier passes. -/
theorem dispatch_rule (ad : Sophos.Adapter) (startTime : Int) (p : Sophos.Proc) :
    (∀ (tick : Tick) (schedule : List Nat) (cfg : ConfigurationSection),
      tick.config = .ok cfg → cfg.ModuleActive = true →
      (Aws.mainCycle startTime tick).pulls =
        (cfg.ConfigurationGroups.filter
          (fun g => ∀ cnf ∈ g.Configurations, TrimSpace cnf.ConfValue ≠ "")).map
          (fun g => ⟨startTime, tick.now, g⟩) ∧
      (Sophos.mainCycle ad startTime p tick schedule).pulls =
        cfg.ConfigurationGroups.filter
          (fun g => ∀ cnf ∈ g.Configurations, TrimSpace cnf.ConfValue ≠ "") ∧
      (∀ g, (⟨startTime, tick.now, g⟩ ∈ (Aws.mainCycle startTime tick).pulls ↔
        g ∈ cfg.ConfigurationGroups ∧
          ∀ cnf ∈ g.Configurations, TrimSpace cnf.ConfValue ≠ "") ∧
        (g ∈ (Sophos.mainCycle ad startTime p tick schedule).pulls ↔
        g ∈ cfg.ConfigurationGroups ∧
          ∀ cnf ∈ g.Configurations, TrimSpace cnf.ConfValue ≠ ""))) ∧
    (∀ ticks : List (Tick × List Nat),
      (Aws.mainLoop startTime (ticks.map (fun t => t.1))).map
          (fun c => c.pulls.map (fun call => call.group)) =
        ticks.map (fun t => dispatchRule t.1.config) ∧
      (Sophos.mainLoop ad startTime p ticks).map (fun c => c.pulls) =
        ticks.map (fun t => dispatchRule t.1.config)) := by
  constructor
  · intro tick schedule cfg h hon
    rw [aws_mainCycle_pulls, sophos_mainCycle_pulls, h]
    simp only [dispatchRule, hon, if_true]
    refine ⟨trivial, trivial, fun g => ⟨?_, ?_⟩⟩
    · simp
    · simp
  · intro ticks
    refine ⟨?_, sophos_mainLoop_pulls ad ticks startTime p⟩
    rw [aws_mainLoop_pulls, List.map_map]
    rfl

theorem dispatch_rule_witness :
    (⟨none, 300, .ok ⟨true, [tenant 7, ⟨8, "unset", [⟨"api_key", " \t"⟩]⟩]⟩⟩ : Tick).config =
      .ok ⟨true, [tenant 7, ⟨8, "unset", [⟨"api_key", " \t"⟩]⟩]⟩ ∧
    (Aws.mainCycle 0 ⟨none, 300, .ok ⟨true, [tenant 7, ⟨8, "unset", [⟨"api_key", " \t"⟩]⟩]⟩⟩).pulls =
      [⟨0, 300, tenant 7⟩] ∧
    (Sophos.mainCycle fixture 0 Sophos.Proc.init
      ⟨none, 300, .ok ⟨true, [tenant 7, ⟨8, "unset", [⟨"api_key", " \t"⟩]⟩]⟩⟩ [0, 0]).pulls =
      [tenant 7] ∧
    (Sophos.mainLoop fixture 0 Sophos.Proc.init
      [(⟨none, 300, .ok ⟨true, [⟨7, "tenant", [⟨"api_key", ""⟩]⟩]⟩⟩, []),
       (⟨none, 600, .ok ⟨true, [tenant 7]⟩⟩, [])]).map (fun c => c.pulls) =
      [[], [tenant 7]] :=
  have h := dispatch_rule fixture 0 Sophos.Proc.init
  have h1 := h.1 ⟨none, 300, .ok ⟨true, [tenant 7, ⟨8, "unset", [⟨"api_key", " \t"⟩]⟩]⟩⟩ [0, 0]
    ⟨true, [tenant 7, ⟨8, "unset", [⟨"api_key", " \t"⟩]⟩]⟩ rfl rfl
  have h2 := (h.2 [(⟨none, 300, .ok ⟨true, [⟨7, "tenant", [⟨"api_key", ""⟩]⟩]⟩⟩, []),
       (⟨none, 600, .ok ⟨true, [tenant 7]⟩⟩, [])]).2
  ⟨rfl, h1.1.trans (by decide), h1.2.1.trans (by decide), h2.trans (by decide)⟩

/-- C7 as stated fails: for the error of a malformed response the aws and sophos loops
emit two entries, the `LogF(100, ...)` entry and then an `ErrorF` entry; and for an error
whose text is blank they emit none. -/
theorem config_error_logs_counterexample :
    Contains "invalid character '<' looking for beginning of value" "invalid character '<'"
      = true ∧
    (Aws.mainCycle 0 ⟨none, 300, .error "invalid character '<' looking for beginning of value"⟩).logs =
      [⟨Level.Info, "Syncing logs from %s to %s", [Arg.time 0, Arg.time 300]⟩,
       ⟨Level.LogF 100, "error getting configuration of the AWS module: backend is not available", []⟩,
       ⟨Level.ErrorF, "error getting configuration of the AWS module: %v",
         [Arg.str "invalid character '<' looking for beginning of value"]⟩] ∧
    (Sophos.mainCycle fixture 0 Sophos.Proc.init
      ⟨none, 300, .error "invalid character '<' looking for beginning of value"⟩ []).logs =
      [⟨Level.Info, "Syncing logs from %s to %s", [Arg.time 0, Arg.time 300]⟩,
       ⟨Level.LogF 100, "error getting configuration of the SOPHOS module: backend is not available", []⟩,
       ⟨Level.ErrorF, "error getting configuration of the SOPHOS module: %v",
         [Arg.str "invalid character '<' looking for beginning of value"]⟩] ∧
    (Aws.configErrorLogs "invalid character '<' looking for beginning of value").length ≠ 1 ∧
    (Sophos.configErrorLogs "invalid character '<' looking for beginning of value").length ≠ 1 ∧
    Aws.configErrorLogs " " = [] ∧ Sophos.configErrorLogs " " = [] := by
  refine ⟨?_, ?_, ?_, ?_, ?_, ?_, ?_⟩ <;> decide

/-- The entries of a pass whose configuration fetch fails, in full. -/
theorem config_error_entries (ad : Sophos.Adapter) (startTime : Int) (p : Sophos.Proc)
    (tick : Tick) (schedule : List Nat) (err : String) (h : tick.config = .error err) :
    (Aws.mainCycle startTime tick).logs =
      Aws.connectionLogs tick.connErr ++
      [⟨Level.Info, "Syncing logs from %s to %s", [Arg.time startTime, Arg.time tick.now]⟩] ++
      (if Contains err "invalid character '<'" = true then
        [⟨Level.LogF 100,
            "error getting configuration of the AWS module: backend is not available", []⟩,
          ⟨Level.ErrorF, "error getting configuration of the AWS module: %v", [Arg.str err]⟩]
      else if TrimSpace err = "" then []
      else [⟨Level.ErrorF, "error getting configuration of the AWS module: %v", [Arg.str err]⟩]) ∧
    (Sophos.mainCycle ad startTime p tick schedule).logs =
      Sophos.connectionLogs tick.connErr ++
      [⟨Level.Info, "Syncing logs from %s to %s", [Arg.time startTime, Arg.time tick.now]⟩] ++
      (if Contains err "invalid character '<'" = true then
        [⟨Level.LogF 100,
            "error getting configuration of the SOPHOS module: backend is not available", []⟩,
          ⟨Level.ErrorF, "error getting configuration of the SOPHOS module: %v", [Arg.str err]⟩]
      else if TrimSpace err = "" then []
      else [⟨Level.ErrorF, "error getting configuration of the SOPHOS module: %v",
        [Arg.str err]⟩]) := by
  by_cases hc : Contains err "invalid character '<'" = true
  · have hb := contains_marker_not_blank err hc
    simp [Aws.mainCycle, Sophos.mainCycle, h, Aws.configErrorLogs, Sophos.configErrorLogs, hc, hb]
  · by_cases hb : TrimSpace err = ""
    · simp [Aws.mainCycle, Sophos.mainCycle, h, Aws.configErrorLogs, Sophos.configErrorLogs,
        hc, hb]
    · simp [Aws.mainCycle, Sophos.mainCycle, h, Aws.configErrorLogs, Sophos.configErrorLogs,
        hc, hb]

/-- C7, amended: when the configuration fetch fails, the entries of the pass are the
connection-check entry (if any), the `Syncing logs` entry and then the entries for the
error, which are: for an error whose text contains `invalid character '<'`, the
`LogF(100, ...)` "backend is not available" entry, once and first; for any other error
whose text is not blank after `strings.TrimSpace`, exactly one entry, an `ErrorF` carrying
the error; for an error whose text is blank, no entry. -/
theorem config_error_logs (ad : Sophos.Adapter) (startTime : Int) (p : Sophos.Proc)
    (tick : Tick) (schedule : List Nat) (err : String) (h : tick.config = .error err) :
    ((Aws.mainCycle startTime tick).logs =
        Aws.connectionLogs tick.connErr ++
        [⟨Level.Info, "Syncing logs from %s to %s", [Arg.time startTime, Arg.time tick.now]⟩] ++
        Aws.configErrorLogs err ∧
      (Sophos.mainCycle ad startTime p tick schedule).logs =
        Sophos.connectionLogs tick.connErr ++
        [⟨Level.Info, "Syncing logs from %s to %s", [Arg.time startTime, Arg.time tick.now]⟩] ++
        Sophos.configErrorLogs err) ∧
    (Contains err "invalid character '<'" = true →
      (Aws.configErrorLogs err).head? = some ⟨Level.LogF 100,
        "error getting configuration of the AWS module: backend is not available", []⟩ ∧
      (Aws.configErrorLogs err).filter (fun e => e.level = Level.LogF 100) =
        [⟨Level.LogF 100,
          "error getting configuration of the AWS module: backend is not available", []⟩] ∧
      (Sophos.configErrorLogs err).head? = some ⟨Level.LogF 100,
        "error getting configuration of the SOPHOS module: backend is not available", []⟩ ∧
      (Sophos.configErrorLogs err).filter (fun e => e.level = Level.LogF 100) =
        [⟨Level.LogF 100,
          "error getting configuration of the SOPHOS module: backend is not available", []⟩]) ∧
    (Contains err "invalid character '<'" = false → TrimSpace err ≠ "" →
      Aws.configErrorLogs err =
        [⟨Level.ErrorF, "error getting configuration of the AWS module: %v", [Arg.str err]⟩] ∧
      Sophos.configErrorLogs err =
        [⟨Level.ErrorF, "error getting configuration of the SOPHOS module: %v",
          [Arg.str err]⟩]) ∧
    (TrimSpace err = "" → Aws.configErrorLogs err = [] ∧ Sophos.configErrorLogs err = []) := by
  refine ⟨⟨by simp [Aws.mainCycle, h], by simp [Sophos.mainCycle, h]⟩, ?_, ?_, ?_⟩
  · intro hc
    have hb := contains_marker_not_blank err hc
    simp [Aws.configErrorLogs, Sophos.configErrorLogs, hc, hb, List.filter_cons]
  · intro hc hb
    simp [Aws.configErrorLogs, Sophos.configErrorLogs, hc, hb]
  · intro hb
    have hc : Contains err "invalid character '<'" = false := by
      cases hcc : Contains err "invalid character '<'" with
      | false => rfl
      | true => exact absurd hb (contains_marker_not_blank err hcc)
    simp [Aws.configErrorLogs, Sophos.configErrorLogs, hc, hb]

theorem config_error_logs_witness :
    (⟨none, 300, .error "connection refused"⟩ : Tick).config = .error "connection refused" ∧
    Contains "connection refused" "invalid character '<'" = false ∧
    TrimSpace "connection refused" ≠ "" ∧
    (Aws.mainCycle 0 ⟨none, 300, .error "connection refused"⟩).logs =
      [⟨Level.Info, "Syncing logs from %s to %s", [Arg.time 0, Arg.time 300]⟩,
       ⟨Level.ErrorF, "error getting configuration of the AWS module: %v",
         [Arg.str "connection refused"]⟩] ∧
    Sophos.configErrorLogs "connection refused" =
      [⟨Level.ErrorF, "error getting configuration of the SOPHOS module: %v",
        [Arg.str "connection refused"]⟩] :=
  have h := config_error_logs fixture 0 Sophos.Proc.init ⟨none, 300, .error "connection refused"⟩
    [] "connection refused" rfl
  ⟨rfl, by decide, by decide, h.1.1.trans (by decide), (h.2.2.1 (by decide) (by decide)).2⟩

/-! ## `ValidateConnectorType` -/

/-- C10: `ValidateConnectorType` answers `"collector"` exactly on the input `"as_400"` and
`"agent"` on every other string, among them the empty string, an unknown type and each of
the other 47 declared `LogType` values. -/
theorem validateConnectorType_classifies (typ : String) :
    (Proxy.ValidateConnectorType typ = "collector" ↔ typ = "as_400") ∧
    (Proxy.ValidateConnectorType typ = "agent" ↔ typ ≠ "as_400") ∧
    Proxy.ValidateConnectorType "" = "agent" ∧
    Proxy.ValidateConnectorType "no_such_type" = "agent" ∧
    Proxy.logTypes.filter (fun t => Proxy.ValidateConnectorType t = "collector") = ["as_400"] ∧
    Proxy.logTypes.filter (fun t => Proxy.ValidateConnectorType t = "agent") =
      Proxy.logTypes.filter (fun t => t ≠ "as_400") ∧
    (Proxy.logTypes.filter (fun t => t ≠ "as_400")).length = 47 := by
  refine ⟨?_, ?_, by decide, by decide, by decide, by decide, by decide⟩
  · unfold Proxy.ValidateConnectorType Proxy.AS400
    split <;> simp_all
  · unfold Proxy.ValidateConnectorType Proxy.AS400
    split <;> simp_all

/-! ## `PullLogs` run on its own -/

theorem forwarded_append (xs ys : List Sophos.Event) :
    Sophos.forwarded (xs ++ ys) = Sophos.forwarded xs ++ Sophos.forwarded ys := by
  induction xs with
  | nil => rfl
  | cons x xs ih => cases x <;> simp [Sophos.forwarded, ih]

theorem fetches_append (xs ys : List Sophos.Event) :
    Sophos.fetches (xs ++ ys) = Sophos.fetches xs ++ Sophos.fetches ys := by
  induction xs with
  | nil => rfl
  | cons x xs ih => cases x <;> simp [Sophos.fetches, ih]

theorem pullLogs_fetch_error (ad : Sophos.Adapter) (group : ModuleGroup) (startTime : Int)
    (p : Sophos.Proc) (logErr : String)
    (h : ad.getLogs (Sophos.Unix startTime) (p.get group.ModuleID) group = .error logErr) :
    Sophos.PullLogs ad group startTime p =
      (⟨p.nextKeys, p.readers + 1 - 1,
        p.trace ++ [.RLock] ++ [.mapRead group.ModuleID] ++ [.RUnlock] ++
          [.getLogs (Sophos.Unix startTime) (p.get group.ModuleID) group]⟩, some logErr) := by
  have h' : ad.getLogs (Sophos.Unix startTime) (p.rlock.get group.ModuleID) group =
      .error logErr := h
  simp only [Sophos.PullLogs, h']
  rfl

theorem pullLogs_fetch_ok (ad : Sophos.Adapter) (group : ModuleGroup) (startTime : Int)
    (p : Sophos.Proc) (logs : List String) (newNextKey : String)
    (h : ad.getLogs (Sophos.Unix startTime) (p.get group.ModuleID) group =
      .ok (logs, newNextKey)) :
    Sophos.PullLogs ad group startTime p =
      (⟨fun k => if k = group.ModuleID then some newNextKey else p.nextKeys k,
        p.readers + 1 - 1,
        p.trace ++ [.RLock] ++ [.mapRead group.ModuleID] ++ [.RUnlock] ++
          [.getLogs (Sophos.Unix startTime) (p.get group.ModuleID) group] ++
          [.mapWrite group.ModuleID newNextKey] ++ [.SendToLogstash logs]⟩,
        ad.SendToLogstash logs) := by
  have h' : ad.getLogs (Sophos.Unix startTime) (p.rlock.get group.ModuleID) group =
      .ok (logs, newNextKey) := h
  simp only [Sophos.PullLogs, h']
  cases hs : ad.SendToLogstash logs <;> rfl

/-- C9: when `getLogs` succeeds with token `t` and `SendToLogstash` fails, `PullLogs`
returns the send error, the checkpoint of the group is `t` (the map was written before the
send and is not rolled back), and no other checkpoint changes; when `getLogs` fails,
`PullLogs` returns the fetch error, `SendToLogstash` is not called and no checkpoint
changes. -/
theorem checkpoint_before_forward (ad : Sophos.Adapter) (group : ModuleGroup)
    (startTime : Int) (p : Sophos.Proc) :
    (∀ logs t sendErr,
      ad.getLogs (Sophos.Unix startTime) (p.get group.ModuleID) group = .ok (logs, t) →
      ad.SendToLogstash logs = some sendErr →
      (Sophos.PullLogs ad group startTime p).2 = some sendErr ∧
      (Sophos.PullLogs ad group startTime p).1.nextKeys group.ModuleID = some t ∧
      (∀ k, k ≠ group.ModuleID →
        (Sophos.PullLogs ad group startTime p).1.nextKeys k = p.nextKeys k) ∧
      (Sophos.PullLogs ad group startTime p).1.trace =
        p.trace ++ [.RLock, .mapRead group.ModuleID, .RUnlock,
          .getLogs (Sophos.Unix startTime) (p.get group.ModuleID) group,
          .mapWrite group.ModuleID t, .SendToLogstash logs]) ∧
    (∀ logErr,
      ad.getLogs (Sophos.Unix startTime) (p.get group.ModuleID) group = .error logErr →
      (Sophos.PullLogs ad group startTime p).2 = some logErr ∧
      (Sophos.PullLogs ad group startTime p).1.nextKeys = p.nextKeys ∧
      Sophos.forwarded (Sophos.PullLogs ad group startTime p).1.trace =
        Sophos.forwarded p.trace ∧
      (Sophos.PullLogs ad group startTime p).1.trace =
        p.trace ++ [.RLock, .mapRead group.ModuleID, .RUnlock,
          .getLogs (Sophos.Unix startTime) (p.get group.ModuleID) group]) := by
  constructor
  · intro logs t sendErr hget hsend
    rw [pullLogs_fetch_ok ad group startTime p logs t hget]
    refine ⟨hsend, by simp, ?_, by simp⟩
    intro k hk
    simp [hk]
  · intro logErr hget
    rw [pullLogs_fetch_error ad group startTime p logErr hget]
    refine ⟨rfl, rfl, ?_, by simp⟩
    simp [forwarded_append, Sophos.forwarded]

theorem checkpoint_before_forward_witness :
    fixture.getLogs (Sophos.Unix 0)
      ((⟨fun _ => some "bad", 0, []⟩ : Sophos.Proc).get (tenant 7).ModuleID) (tenant 7) =
        .ok (["bad"], "p9") ∧
    fixture.SendToLogstash ["bad"] = some "logstash unreachable" ∧
    (Sophos.PullLogs fixture (tenant 7) 0 ⟨fun _ => some "bad", 0, []⟩).2 =
      some "logstash unreachable" ∧
    (Sophos.PullLogs fixture (tenant 7) 0 ⟨fun _ => some "bad", 0, []⟩).1.nextKeys 7 =
      some "p9" ∧
    fixture.getLogs (Sophos.Unix 0) (Sophos.Proc.init.get (tenant 13).ModuleID) (tenant 13) =
      .error "401 Unauthorized" ∧
    (Sophos.PullLogs fixture (tenant 13) 0 Sophos.Proc.init).2 = some "401 Unauthorized" ∧
    Sophos.forwarded (Sophos.PullLogs fixture (tenant 13) 0 Sophos.Proc.init).1.trace =
      Sophos.forwarded Sophos.Proc.init.trace :=
  have h1 := (checkpoint_before_forward fixture (tenant 7) 0 ⟨fun _ => some "bad", 0, []⟩).1
    ["bad"] "p9" "logstash unreachable" rfl (by decide)
  have h2 := (checkpoint_before_forward fixture (tenant 13) 0 Sophos.Proc.init).2
    "401 Unauthorized" rfl
  ⟨rfl, by decide, h1.1, h1.2.1, rfl, h2.1, h2.2.2.1⟩

/-! ## The goroutines of a pass -/

theorem step_pcs_ne (ad : Sophos.Adapter) (startTime : Int) (groups : List ModuleGroup)
    (i j : Nat) (m : Sophos.Machine) (hij : i ≠ j) :
    (Sophos.step ad startTime groups j m).pcs i = m.pcs i := by
  unfold Sophos.step
  split
  · rfl
  · split <;>
      first
      | rfl
      | exact Function.update_noteq hij _ _
      | (split <;> exact Function.update_noteq hij _ _)

theorem step_rank (ad : Sophos.Adapter) (startTime : Int) (groups : List ModuleGroup)
    (i : Nat) (m : Sophos.Machine) (g : ModuleGroup) (hg : groups[i]? = some g) :
    min 6 ((m.pcs i).rank + 1) ≤ ((Sophos.step ad startTime groups i m).pcs i).rank := by
  unfold Sophos.step
  rw [hg]
  simp only
  split <;> rename_i hpc
  case h_4 =>
    split <;> simp [hpc, Sophos.Pc.rank]
  all_goals simp [hpc, Sophos.Pc.rank]

theorem rank_le_six (pc : Sophos.Pc) : pc.rank ≤ 6 := by
  cases pc <;> simp [Sophos.Pc.rank]

theorem isDone_of_rank (pc : Sophos.Pc) (h : 6 ≤ pc.rank) : pc.isDone = true := by
  cases pc <;> simp_all [Sophos.Pc.rank, Sophos.Pc.isDone]

theorem step_done_stays (ad : Sophos.Adapter) (startTime : Int) (groups : List ModuleGroup)
    (i j : Nat) (m : Sophos.Machine) (h : (m.pcs i).isDone = true) :
    ((Sophos.step ad startTime groups j m).pcs i).isDone = true := by
  by_cases hij : i = j
  · subst hij
    unfold Sophos.step
    split
    · exact h
    · split <;> rename_i hpc <;> simp_all [Sophos.Pc.isDone]
  · rw [step_pcs_ne ad startTime groups i j m hij]
    exact h

theorem iterate_step_rank (ad : Sophos.Adapter) (startTime : Int) (groups : List ModuleGroup)
    (i : Nat) (g : ModuleGroup) (hg : groups[i]? = some g) (n : Nat) (m : Sophos.Machine) :
    min 6 ((m.pcs i).rank + n) ≤ (((Sophos.step ad startTime groups i)^[n] m).pcs i).rank := by
  induction n with
  | zero => simp
  | succ n ih =>
    rw [Function.iterate_succ_apply']
    have h1 := step_rank ad startTime groups i ((Sophos.step ad startTime groups i)^[n] m) g hg
    omega

theorem runTask_done (ad : Sophos.Adapter) (startTime : Int) (groups : List ModuleGroup)
    (i : Nat) (g : ModuleGroup) (hg : groups[i]? = some g) (m : Sophos.Machine) :
    ((Sophos.runTask ad startTime groups i m).pcs i).isDone = true := by
  apply isDone_of_rank
  have h := iterate_step_rank ad startTime groups i g hg 6 m
  unfold Sophos.runTask
  omega

theorem runTask_done_stays (ad : Sophos.Adapter) (startTime : Int) (groups : List ModuleGroup)
    (i j : Nat) (m : Sophos.Machine) (h : (m.pcs i).isDone = true) :
    ((Sophos.runTask ad startTime groups j m).pcs i).isDone = true := by
  unfold Sophos.runTask
  generalize 6 = n
  induction n with
  | zero => exact h
  | succ n ih =>
    rw [Function.iterate_succ_apply']
    exact step_done_stays ad startTime groups i j _ ih

theorem foldl_runTask_done (ad : Sophos.Adapter) (startTime : Int) (groups : List ModuleGroup)
    (l : List Nat) (hl : ∀ j ∈ l, j < groups.length) (i : Nat) :
    ∀ m : Sophos.Machine, (i ∈ l ∨ (m.pcs i).isDone = true) →
      ((l.foldl (fun m j => Sophos.runTask ad startTime groups j m) m).pcs i).isDone = true := by
  induction l with
  | nil =>
    intro m h
    rcases h with h | h
    · simp at h
    · exact h
  | cons j l ih =>
    intro m h
    rw [List.foldl_cons]
    apply ih (fun k hk => hl k (List.mem_cons_of_mem _ hk))
    rcases h with h | h
    · rcases List.mem_cons.mp h with h | h
      · subst h
        have hlt : i < groups.length := hl i (List.mem_cons_self _ _)
        right
        exact runTask_done ad startTime groups i groups[i] (List.getElem?_eq_getElem hlt) m
      · left; exact h
    · right
      exact runTask_done_stays ad startTime groups i j m h

/-- After the barrier every goroutine of the pass has returned. -/
theorem runGroups_all_done (ad : Sophos.Adapter) (startTime : Int) (groups : List ModuleGroup)
    (schedule : List Nat) (p : Sophos.Proc) (i : Nat) (hi : i < groups.length) :
    ((Sophos.runGroups ad startTime groups schedule p).pcs i).isDone = true := by
  unfold Sophos.runGroups Sophos.waitAll
  apply foldl_runTask_done ad startTime groups _ (fun j hj => List.mem_range.mp hj)
  left
  exact List.mem_range.mpr hi

/-- A property that holds when the goroutines are started and that every statement of
every goroutine preserves holds after the barrier, whatever the interleaving. -/
theorem runGroups_induct (ad : Sophos.Adapter) (startTime : Int) (groups : List ModuleGroup)
    (Inv : Sophos.Machine → Prop)
    (hstep : ∀ j m, Inv m → Inv (Sophos.step ad startTime groups j m))
    (schedule : List Nat) (p : Sophos.Proc) (h0 : Inv ⟨p, fun _ => .rlock⟩) :
    Inv (Sophos.runGroups ad startTime groups schedule p) := by
  have hsched : ∀ (l : List Nat) (m : Sophos.Machine), Inv m →
      Inv (Sophos.runSchedule ad startTime groups l m) := by
    intro l
    induction l with
    | nil => intro m hm; exact hm
    | cons j l ih => intro m hm; exact ih _ (hstep j m hm)
  have htask : ∀ (j : Nat) (m : Sophos.Machine), Inv m →
      Inv (Sophos.runTask ad startTime groups j m) := by
    intro j m hm
    unfold Sophos.runTask
    generalize 6 = n
    induction n with
    | zero => exact hm
    | succ n ih =>
      rw [Function.iterate_succ_apply']
      exact hstep j _ ih
  have hfold : ∀ (l : List Nat) (m : Sophos.Machine), Inv m →
      Inv (l.foldl (fun m j => Sophos.runTask ad startTime groups j m) m) := by
    intro l
    induction l with
    | nil => intro m hm; exact hm
    | cons j l ih => intro m hm; exact ih _ (htask j m hm)
  exact hfold _ _ (hsched _ _ h0)

/-- A pass with a single goroutine leaves package `processor` in the state in which
`PullLogs`, run on its own, leaves it, whatever the schedule. -/
theorem runGroups_single (ad : Sophos.Adapter) (startTime : Int) (g : ModuleGroup)
    (schedule : List Nat) (p : Sophos.Proc) :
    (Sophos.runGroups ad startTime [g] schedule p).proc =
      (Sophos.PullLogs ad g startTime p).1 := by
  have h := runGroups_induct ad startTime [g]
    (fun m => match m.pcs 0 with
      | .rlock => m.proc = p
      | .read => m.proc = p.rlock
      | .runlock prevKey => prevKey = p.get g.ModuleID ∧ m.proc = p.rlock.read g.ModuleID
      | .fetch prevKey => prevKey = p.get g.ModuleID ∧
          m.proc = (p.rlock.read g.ModuleID).runlock
      | .store logs newNextKey =>
          ad.getLogs (Sophos.Unix startTime) (p.get g.ModuleID) g = .ok (logs, newNextKey) ∧
          m.proc = ((p.rlock.read g.ModuleID).runlock).fetch (Sophos.Unix startTime)
            (p.get g.ModuleID) g
      | .send logs => ∃ newNextKey,
          ad.getLogs (Sophos.Unix startTime) (p.get g.ModuleID) g = .ok (logs, newNextKey) ∧
          m.proc = (((p.rlock.read g.ModuleID).runlock).fetch (Sophos.Unix startTime)
            (p.get g.ModuleID) g).write g.ModuleID newNextKey
      | .done _ => m.proc = (Sophos.PullLogs ad g startTime p).1)
    ?_ schedule p rfl
  · have hd := runGroups_all_done ad startTime [g] schedule p 0 (by simp)
    revert h hd
    generalize (Sophos.runGroups ad startTime [g] schedule p) = m
    intro h hd
    cases hpc : m.pcs 0 <;> rw [hpc] at h hd <;> simp_all [Sophos.Pc.isDone]
  · intro j m hinv
    rcases Nat.eq_zero_or_pos j with hj0 | hj0
    · subst hj0
      cases hpc : m.pcs 0 <;> simp only [hpc] at hinv <;>
        simp only [Sophos.step, List.getElem?_cons_zero, hpc, Function.update_same]
      · rw [hinv]
      · rw [hinv]; exact ⟨rfl, rfl⟩
      · exact ⟨hinv.1, by rw [hinv.2]⟩
      · obtain ⟨hk, hproc⟩ := hinv
        subst hk
        cases hres : ad.getLogs (Sophos.Unix startTime) (p.get g.ModuleID) g with
        | error e =>
          simp only [Function.update_same, hproc]
          rw [pullLogs_fetch_error ad g startTime p _ hres]
          rfl
        | ok r =>
          obtain ⟨logs, key⟩ := r
          simp only [Function.update_same, hproc]
          trivial
      · exact ⟨_, hinv.1, by rw [hinv.2]⟩
      · obtain ⟨key, hres, hproc⟩ := hinv
        rw [hproc, pullLogs_fetch_ok ad g startTime p _ _ hres]
        rfl
      · exact hinv
    · have hnone : ([g] : List ModuleGroup)[j]? = none := by
        apply List.getElem?_eq_none
        simpa using hj0
      unfold Sophos.step
      rw [hnone]
      exact hinv

theorem mainCycle_single (ad : Sophos.Adapter) (startTime : Int) (p : Sophos.Proc)
    (tick : Tick) (schedule : List Nat) (group : ModuleGroup)
    (h : tick.config = .ok ⟨true, [group]⟩)
    (hc : ∀ cnf ∈ group.Configurations, TrimSpace cnf.ConfValue ≠ "") :
    (Sophos.mainCycle ad startTime p tick schedule).proc =
      (Sophos.PullLogs ad group startTime p).1 ∧
    (Sophos.mainCycle ad startTime p tick schedule).nextStart = tick.now + 1 ∧
    (Sophos.mainCycle ad startTime p tick schedule).pulls = [group] := by
  have hs : skip group.Configurations = false := (skip_eq_false_iff _).mpr hc
  have hf : Sophos.fanOut [group] = ([], [group]) := by
    simp [Sophos.fanOut, Sophos.groupTask, hs]
  simp only [Sophos.mainCycle, h, if_true, hf]
  exact ⟨runGroups_single ad startTime group schedule p, trivial, trivial⟩

/-! ## The goroutines of a pass, with the map assignment in two halves -/

theorem raceStep_of_aborted (ad : Sophos.Adapter) (startTime : Int)
    (groups : List ModuleGroup) (j : Nat) (m : Sophos.RaceMachine) (h : m.aborted = true) :
    Sophos.raceStep ad startTime groups j m = m := by
  simp [Sophos.raceStep, h]

theorem raceStep_not_aborted (ad : Sophos.Adapter) (startTime : Int)
    (groups : List ModuleGroup) (j : Nat) (m : Sophos.RaceMachine)
    (h : (Sophos.raceStep ad startTime groups j m).aborted = false) : m.aborted = false := by
  cases ha : m.aborted with
  | false => rfl
  | true => rw [raceStep_of_aborted ad startTime groups j m ha] at h; rw [ha] at h; exact h

theorem raceStep_pcs_ne (ad : Sophos.Adapter) (startTime : Int) (groups : List ModuleGroup)
    (i j : Nat) (m : Sophos.RaceMachine) (hij : i ≠ j) :
    (Sophos.raceStep ad startTime groups j m).pcs i = m.pcs i := by
  unfold Sophos.raceStep
  split
  · rfl
  · split
    · rfl
    · split <;>
        first
        | rfl
        | exact Function.update_noteq hij _ _
        | (split <;> first | rfl | exact Function.update_noteq hij _ _)

theorem raceStep_rank (ad : Sophos.Adapter) (startTime : Int) (groups : List ModuleGroup)
    (i : Nat) (m : Sophos.RaceMachine) (g : ModuleGroup) (hg : groups[i]? = some g)
    (h : (Sophos.raceStep ad startTime groups i m).aborted = false) :
    min 7 ((m.pcs i).rank + 1) ≤ ((Sophos.raceStep ad startTime groups i m).pcs i).rank := by
  have ha := raceStep_not_aborted ad startTime groups i m h
  revert h
  unfold Sophos.raceStep
  rw [hg]
  simp only [ha, Bool.false_eq_true, ↓reduceIte]
  cases hpc : m.pcs i with
  | rlock => intro _; simp [Sophos.RacePc.rank]
  | read =>
    cases hw : m.writing <;> simp [Sophos.RacePc.rank]
  | runlock k => intro _; simp [Sophos.RacePc.rank]
  | fetch k =>
    intro _
    cases hres : ad.getLogs (Sophos.Unix startTime) k g <;> simp [hres, Sophos.RacePc.rank]
  | store l k =>
    cases hw : m.writing <;> simp [Sophos.RacePc.rank]
  | storing l k => intro _; simp [Sophos.RacePc.rank]
  | send l => intro _; simp [Sophos.RacePc.rank]
  | done e => intro _; simp [hpc, Sophos.RacePc.rank]

theorem race_isDone_of_rank (pc : Sophos.RacePc) (h : 7 ≤ pc.rank) : pc.isDone = true := by
  cases pc <;> simp_all [Sophos.RacePc.rank, Sophos.RacePc.isDone]

theorem raceStep_done_stays (ad : Sophos.Adapter) (startTime : Int)
    (groups : List ModuleGroup) (i j : Nat) (m : Sophos.RaceMachine)
    (h : (m.pcs i).isDone = true) :
    ((Sophos.raceStep ad startTime groups j m).pcs i).isDone = true := by
  by_cases hij : i = j
  · subst hij
    cases hpc : m.pcs i <;> rw [hpc] at h <;> simp [Sophos.RacePc.isDone] at h
    unfold Sophos.raceStep
    split
    · rw [hpc]; rfl
    · split
      · rw [hpc]; rfl
      · simp only [hpc]; rfl
  · rw [raceStep_pcs_ne ad startTime groups i j m hij]
    exact h

theorem iterate_raceStep_not_aborted (ad : Sophos.Adapter) (startTime : Int)
    (groups : List ModuleGroup) (j : Nat) (n : Nat) (m : Sophos.RaceMachine)
    (h : ((Sophos.raceStep ad startTime groups j)^[n] m).aborted = false) :
    m.aborted = false := by
  induction n with
  | zero => exact h
  | succ n ih =>
    rw [Function.iterate_succ_apply'] at h
    exact ih (raceStep_not_aborted ad startTime groups j _ h)

theorem iterate_raceStep_rank (ad : Sophos.Adapter) (startTime : Int)
    (groups : List ModuleGroup) (i : Nat) (g : ModuleGroup) (hg : groups[i]? = some g)
    (n : Nat) (m : Sophos.RaceMachine)
    (h : ((Sophos.raceStep ad startTime groups i)^[n] m).aborted = false) :
    min 7 ((m.pcs i).rank + n) ≤
      (((Sophos.raceStep ad startTime groups i)^[n] m).pcs i).rank := by
  induction n with
  | zero => simp
  | succ n ih =>
    rw [Function.iterate_succ_apply'] at h ⊢
    have h1 := raceStep_rank ad startTime groups i _ g hg h
    have h2 := ih (raceStep_not_aborted ad startTime groups i _ h)
    omega

theorem raceTask_not_aborted (ad : Sophos.Adapter) (startTime : Int)
    (groups : List ModuleGroup) (j : Nat) (m : Sophos.RaceMachine)
    (h : (Sophos.raceTask ad startTime groups j m).aborted = false) : m.aborted = false :=
  iterate_raceStep_not_aborted ad startTime groups j 7 m h

theorem raceTask_done (ad : Sophos.Adapter) (startTime : Int) (groups : List ModuleGroup)
    (i : Nat) (g : ModuleGroup) (hg : groups[i]? = some g) (m : Sophos.RaceMachine)
    (h : (Sophos.raceTask ad startTime groups i m).aborted = false) :
    ((Sophos.raceTask ad startTime groups i m).pcs i).isDone = true := by
  apply race_isDone_of_rank
  have hr := iterate_raceStep_rank ad startTime groups i g hg 7 m h
  unfold Sophos.raceTask
  omega

theorem raceTask_done_stays (ad : Sophos.Adapter) (startTime : Int)
    (groups : List ModuleGroup) (i j : Nat) (m : Sophos.RaceMachine)
    (h : (m.pcs i).isDone = true) :
    ((Sophos.raceTask ad startTime groups j m).pcs i).isDone = true := by
  unfold Sophos.raceTask
  generalize 7 = n
  induction n with
  | zero => exact h
  | succ n ih =>
    rw [Function.iterate_succ_apply']
    exact raceStep_done_stays ad startTime groups i j _ ih

theorem foldl_raceTask_not_aborted (ad : Sophos.Adapter) (startTime : Int)
    (groups : List ModuleGroup) (l : List Nat) :
    ∀ m : Sophos.RaceMachine,
      (l.foldl (fun m j => Sophos.raceTask ad startTime groups j m) m).aborted = false →
      m.aborted = false := by
  induction l with
  | nil => intro m h; exact h
  | cons j l ih =>
    intro m h
    rw [List.foldl_cons] at h
    exact raceTask_not_aborted ad startTime groups j m (ih _ h)

theorem foldl_raceTask_done (ad : Sophos.Adapter) (startTime : Int)
    (groups : List ModuleGroup) (l : List Nat) (hl : ∀ j ∈ l, j < groups.length) (i : Nat) :
    ∀ m : Sophos.RaceMachine,
      (l.foldl (fun m j => Sophos.raceTask ad startTime groups j m) m).aborted = false →
      (i ∈ l ∨ (m.pcs i).isDone = true) →
      ((l.foldl (fun m j => Sophos.raceTask ad startTime groups j m) m).pcs i).isDone =
        true := by
  induction l with
  | nil =>
    intro m _ h
    rcases h with h | h
    · simp at h
    · exact h
  | cons j l ih =>
    intro m hna h
    rw [List.foldl_cons] at hna ⊢
    apply ih (fun k hk => hl k (List.mem_cons_of_mem _ hk)) _ hna
    have hna' := foldl_raceTask_not_aborted ad startTime groups l _ hna
    rcases h with h | h
    · rcases List.mem_cons.mp h with h | h
      · subst h
        have hlt : i < groups.length := hl i (List.mem_cons_self _ _)
        right
        exact raceTask_done ad startTime groups i groups[i] (List.getElem?_eq_getElem hlt) m
          hna'
      · left; exact h
    · right
      exact raceTask_done_stays ad startTime groups i j m h

/-- When the process has not been ended, every goroutine of the pass has returned after
the barrier. -/
theorem raceGroups_all_done (ad : Sophos.Adapter) (startTime : Int)
    (groups : List ModuleGroup) (schedule : List Nat) (p : Sophos.Proc)
    (h : (Sophos.raceGroups ad startTime groups schedule p).aborted = false)
    (i : Nat) (hi : i < groups.length) :
    ((Sophos.raceGroups ad startTime groups schedule p).pcs i).isDone = true := by
  unfold Sophos.raceGroups Sophos.raceWait at h ⊢
  apply foldl_raceTask_done ad startTime groups _ (fun j hj => List.mem_range.mp hj) i _ h
  left
  exact List.mem_range.mpr hi

/-- A property that holds when the goroutines are started and that every step of every
goroutine preserves holds after the barrier, whatever the interleaving. -/
theorem raceGroups_induct (ad : Sophos.Adapter) (startTime : Int) (groups : List ModuleGroup)
    (Inv : Sophos.RaceMachine → Prop)
    (hstep : ∀ j m, Inv m → Inv (Sophos.raceStep ad startTime groups j m))
    (schedule : List Nat) (p : Sophos.Proc) (h0 : Inv ⟨p, false, false, fun _ => .rlock⟩) :
    Inv (Sophos.raceGroups ad startTime groups schedule p) := by
  have hsched : ∀ (l : List Nat) (m : Sophos.RaceMachine), Inv m →
      Inv (Sophos.raceSchedule ad startTime groups l m) := by
    intro l
    induction l with
    | nil => intro m hm; exact hm
    | cons j l ih => intro m hm; exact ih _ (hstep j m hm)
  have htask : ∀ (j : Nat) (m : Sophos.RaceMachine), Inv m →
      Inv (Sophos.raceTask ad startTime groups j m) := by
    intro j m hm
    unfold Sophos.raceTask
    generalize 7 = n
    induction n with
    | zero => exact hm
    | succ n ih =>
      rw [Function.iterate_succ_apply']
      exact hstep j _ ih
  have hfold : ∀ (l : List Nat) (m : Sophos.RaceMachine), Inv m →
      Inv (l.foldl (fun m j => Sophos.raceTask ad startTime groups j m) m) := by
    intro l
    induction l with
    | nil => intro m hm; exact hm
    | cons j l ih => intro m hm; exact ih _ (htask j m hm)
  exact hfold _ _ (hsched _ _ h0)

theorem update_keeps (groups : List ModuleGroup) (key : Int) (P : Sophos.RacePc → Prop)
    (pcs : Nat → Sophos.RacePc) (j : Nat) (new : Sophos.RacePc)
    (hold : ∀ i g, groups[i]? = some g → g.ModuleID = key → P (pcs i))
    (hnew : ∀ g, groups[j]? = some g → g.ModuleID = key → P new) :
    ∀ i g, groups[i]? = some g → g.ModuleID = key → P (Function.update pcs j new i) := by
  intro i g hg hid
  by_cases hij : i = j
  · subst hij
    rw [Function.update_same]
    exact hnew g hg hid
  · rw [Function.update_noteq hij]
    exact hold i g hg hid

/-- A key all of whose goroutines fail in `getLogs` keeps its checkpoint. -/
theorem race_failing_key_unchanged (ad : Sophos.Adapter) (startTime : Int)
    (groups : List ModuleGroup) (schedule : List Nat) (p : Sophos.Proc) (key : Int)
    (hfail : ∀ g ∈ groups, g.ModuleID = key →
      ∃ e, ad.getLogs (Sophos.Unix startTime) (p.get key) g = .error e) :
    (Sophos.raceGroups ad startTime groups schedule p).proc.nextKeys key =
      p.nextKeys key := by
  have h := raceGroups_induct ad startTime groups
    (fun m => m.proc.nextKeys key = p.nextKeys key ∧
      ∀ i g, groups[i]? = some g → g.ModuleID = key → (m.pcs i).beforeFailure (p.get key))
    ?_ schedule p ⟨rfl, fun i g _ _ => trivial⟩
  · exact h.1
  · intro j m ⟨hk, hpc⟩
    cases ha : m.aborted with
    | true => rw [raceStep_of_aborted ad startTime groups j m ha]; exact ⟨hk, hpc⟩
    | false =>
      cases hgj : groups[j]? with
      | none => simp only [Sophos.raceStep, ha, hgj]; exact ⟨hk, hpc⟩
      | some gj =>
        have hmem : gj ∈ groups := List.getElem?_mem hgj
        have hget : m.proc.get key = p.get key := by
          unfold Sophos.Proc.get; rw [hk]
        have hsame : ∀ g, groups[j]? = some g → g = gj := by
          intro g hg; rw [hgj] at hg; exact (Option.some.inj hg).symm
        cases hj : m.pcs j with
        | rlock =>
          simp only [Sophos.raceStep, ha, hgj, hj, Bool.false_eq_true, ↓reduceIte]
          exact ⟨hk, update_keeps groups key _ m.pcs j _ hpc (fun _ _ _ => trivial)⟩
        | read =>
          cases hw : m.writing with
          | true =>
            simp only [Sophos.raceStep, ha, hgj, hj, hw, Bool.false_eq_true, ↓reduceIte]
            exact ⟨hk, hpc⟩
          | false =>
            simp only [Sophos.raceStep, ha, hgj, hj, hw, Bool.false_eq_true, ↓reduceIte]
            refine ⟨hk, update_keeps groups key _ m.pcs j _ hpc (fun g hg hid => ?_)⟩
            rw [hsame g hg] at hid
            simp only [Sophos.RacePc.beforeFailure, hid, hget]
        | runlock k =>
          simp only [Sophos.raceStep, ha, hgj, hj, Bool.false_eq_true, ↓reduceIte]
          refine ⟨hk, update_keeps groups key _ m.pcs j _ hpc (fun g hg hid => ?_)⟩
          have := hpc j g hg hid
          rw [hj] at this
          exact this
        | fetch k =>
          cases hres : ad.getLogs (Sophos.Unix startTime) k gj with
          | error e =>
            simp only [Sophos.raceStep, ha, hgj, hj, hres, Bool.false_eq_true, ↓reduceIte]
            exact ⟨hk, update_keeps groups key _ m.pcs j _ hpc (fun _ _ _ => trivial)⟩
          | ok r =>
            simp only [Sophos.raceStep, ha, hgj, hj, hres, Bool.false_eq_true, ↓reduceIte]
            refine ⟨hk, update_keeps groups key _ m.pcs j _ hpc (fun g hg hid => ?_)⟩
            have hprev := hpc j g hg hid
            rw [hj] at hprev
            simp only [Sophos.RacePc.beforeFailure] at hprev
            rw [hsame g hg] at hid
            obtain ⟨e, he⟩ := hfail gj hmem hid
            rw [hprev, he] at hres
            exact absurd hres (by simp)
        | store l k =>
          cases hw : m.writing with
          | true =>
            simp only [Sophos.raceStep, ha, hgj, hj, hw, Bool.false_eq_true, ↓reduceIte]
            exact ⟨hk, hpc⟩
          | false =>
            simp only [Sophos.raceStep, ha, hgj, hj, hw, Bool.false_eq_true, ↓reduceIte]
            refine ⟨hk, update_keeps groups key _ m.pcs j _ hpc (fun g hg hid => ?_)⟩
            have hprev := hpc j g hg hid
            rw [hj] at hprev
            exact absurd hprev (by simp [Sophos.RacePc.beforeFailure])
        | storing l k =>
          simp only [Sophos.raceStep, ha, hgj, hj, Bool.false_eq_true, ↓reduceIte]
          by_cases hid : gj.ModuleID = key
          · have hprev := hpc j gj hgj hid
            rw [hj] at hprev
            exact absurd hprev (by simp [Sophos.RacePc.beforeFailure])
          · refine ⟨by simp [Sophos.Proc.write, Ne.symm hid, hk],
              update_keeps groups key _ m.pcs j _ hpc (fun g hg hid2 => ?_)⟩
            rw [hsame g hg] at hid2
            exact absurd hid2 hid
        | send l =>
          simp only [Sophos.raceStep, ha, hgj, hj, Bool.false_eq_true, ↓reduceIte]
          exact ⟨hk, update_keeps groups key _ m.pcs j _ hpc (fun _ _ _ => trivial)⟩
        | done e =>
          simp only [Sophos.raceStep, ha, hgj, hj, Bool.false_eq_true, ↓reduceIte]
          exact ⟨hk, hpc⟩

/-- The key of a single goroutine whose `getLogs` answers the token `t` ends a pass that
the runtime has not ended with the checkpoint `t`. -/
theorem race_succeeding_key_updated (ad : Sophos.Adapter) (startTime : Int)
    (groups : List ModuleGroup) (schedule : List Nat) (p : Sophos.Proc) (b : Nat)
    (B : ModuleGroup) (logs : List String) (t : String) (hb : groups[b]? = some B)
    (huniq : ∀ i g, groups[i]? = some g → g.ModuleID = B.ModuleID → i = b)
    (hget : ad.getLogs (Sophos.Unix startTime) (p.get B.ModuleID) B = .ok (logs, t))
    (hna : (Sophos.raceGroups ad startTime groups schedule p).aborted = false) :
    (Sophos.raceGroups ad startTime groups schedule p).proc.nextKeys B.ModuleID =
      some t := by
  have h := raceGroups_induct ad startTime groups
    (fun m => (m.pcs b).towardsToken (p.get B.ModuleID) (p.nextKeys B.ModuleID) t
      (m.proc.nextKeys B.ModuleID))
    ?_ schedule p rfl
  · have hlt : b < groups.length := by
      rcases Nat.lt_or_ge b groups.length with hl | hl
      · exact hl
      · rw [List.getElem?_eq_none hl] at hb; exact absurd hb (by simp)
    have hd := raceGroups_all_done ad startTime groups schedule p hna b hlt
    revert h hd
    generalize (Sophos.raceGroups ad startTime groups schedule p) = m
    intro h hd
    cases hpc : m.pcs b <;> rw [hpc] at h hd <;>
      simp_all [Sophos.RacePc.isDone, Sophos.RacePc.towardsToken]
  · intro j m hinv
    cases ha : m.aborted with
    | true => rw [raceStep_of_aborted ad startTime groups j m ha]; exact hinv
    | false =>
      by_cases hjb : j = b
      · subst hjb
        cases hj : m.pcs j <;> rw [hj] at hinv <;>
          simp only [Sophos.RacePc.towardsToken] at hinv
        · simp only [Sophos.raceStep, ha, hb, hj, Bool.false_eq_true, ↓reduceIte,
            Function.update_same]
          exact hinv
        · cases hw : m.writing with
          | true =>
            simp only [Sophos.raceStep, ha, hb, hj, hw, Bool.false_eq_true, ↓reduceIte]
            exact hinv
          | false =>
            simp only [Sophos.raceStep, ha, hb, hj, hw, Bool.false_eq_true, ↓reduceIte,
              Function.update_same]
            exact ⟨by simp [Sophos.Proc.get, hinv], hinv⟩
        · simp only [Sophos.raceStep, ha, hb, hj, Bool.false_eq_true, ↓reduceIte,
            Function.update_same]
          exact hinv
        · rw [hinv.1] at hj
          simp only [Sophos.raceStep, ha, hb, hj, hget, Bool.false_eq_true, ↓reduceIte,
            Function.update_same]
          exact ⟨rfl, hinv.2⟩
        · cases hw : m.writing with
          | true =>
            simp only [Sophos.raceStep, ha, hb, hj, hw, Bool.false_eq_true, ↓reduceIte]
            exact hinv
          | false =>
            simp only [Sophos.raceStep, ha, hb, hj, hw, Bool.false_eq_true, ↓reduceIte,
              Function.update_same]
            exact hinv
        · simp only [Sophos.raceStep, ha, hb, hj, Bool.false_eq_true, ↓reduceIte,
            Function.update_same]
          simp [Sophos.RacePc.towardsToken, Sophos.Proc.write, hinv.1]
        · simp only [Sophos.raceStep, ha, hb, hj, Bool.false_eq_true, ↓reduceIte,
            Function.update_same]
          exact hinv
        · simp only [Sophos.raceStep, ha, hb, hj, Bool.false_eq_true, ↓reduceIte]
          exact hinv
      · have hpcs := raceStep_pcs_ne ad startTime groups b j m (Ne.symm hjb)
        have hkeys : (Sophos.raceStep ad startTime groups j m).proc.nextKeys B.ModuleID =
            m.proc.nextKeys B.ModuleID := by
          cases hgj : groups[j]? with
          | none => simp only [Sophos.raceStep, ha, hgj, Bool.false_eq_true, ↓reduceIte]
          | some gj =>
            have hne : B.ModuleID ≠ gj.ModuleID := fun he => hjb (huniq j gj hgj he.symm)
            cases hj : m.pcs j with
            | read =>
              cases hw : m.writing <;>
                simp only [Sophos.raceStep, ha, hgj, hj, hw, Bool.false_eq_true, ↓reduceIte]
              rfl
            | store l k =>
              cases hw : m.writing <;>
                simp only [Sophos.raceStep, ha, hgj, hj, hw, Bool.false_eq_true, ↓reduceIte]
            | fetch k =>
              cases hres : ad.getLogs (Sophos.Unix startTime) k gj <;>
                simp only [Sophos.raceStep, ha, hgj, hj, hres, Bool.false_eq_true,
                  ↓reduceIte] <;> rfl
            | storing l k =>
              simp only [Sophos.raceStep, ha, hgj, hj, Bool.false_eq_true, ↓reduceIte]
              simp [Sophos.Proc.write, hne]
            | rlock =>
              simp only [Sophos.raceStep, ha, hgj, hj, Bool.false_eq_true, ↓reduceIte]; rfl
            | runlock k =>
              simp only [Sophos.raceStep, ha, hgj, hj, Bool.false_eq_true, ↓reduceIte]; rfl
            | send l =>
              simp only [Sophos.raceStep, ha, hgj, hj, Bool.false_eq_true, ↓reduceIte]; rfl
            | done e =>
              simp only [Sophos.raceStep, ha, hgj, hj, Bool.false_eq_true, ↓reduceIte]
        simp only [hpcs, hkeys]
        exact hinv

/-- When the goroutines run one after the other, no access to `nextKeys` falls inside a
map assignment, and the runtime does not end the process. -/
theorem raceGroups_serial (ad : Sophos.Adapter) (startTime : Int)
    (groups : List ModuleGroup) (p : Sophos.Proc) :
    (Sophos.raceGroups ad startTime groups [] p).aborted = false := by
  have hstep : ∀ (i : Nat) (m : Sophos.RaceMachine),
      (m.aborted = false ∧ (m.writing = true → (m.pcs i).isStoring = true) ∧
        ∀ j, j ≠ i → (m.pcs j).isStoring = false) →
      ((Sophos.raceStep ad startTime groups i m).aborted = false ∧
        ((Sophos.raceStep ad startTime groups i m).writing = true →
          ((Sophos.raceStep ad startTime groups i m).pcs i).isStoring = true) ∧
        ∀ j, j ≠ i → ((Sophos.raceStep ad startTime groups i m).pcs j).isStoring = false) := by
    intro i m ⟨ha, hw, ho⟩
    have hothers : ∀ j, j ≠ i →
        ((Sophos.raceStep ad startTime groups i m).pcs j).isStoring = false := by
      intro j hj
      rw [raceStep_pcs_ne ad startTime groups j i m hj]
      exact ho j hj
    refine ⟨?_, ?_, hothers⟩
    · cases hgi : groups[i]? with
      | none => simp only [Sophos.raceStep, ha, hgi, Bool.false_eq_true, ↓reduceIte]
      | some g =>
        cases hpc : m.pcs i with
        | read =>
          have hwf : m.writing = false := by
            cases hm : m.writing with
            | false => rfl
            | true => have := hw hm; rw [hpc] at this; simp [Sophos.RacePc.isStoring] at this
          simp only [Sophos.raceStep, ha, hgi, hpc, hwf, Bool.false_eq_true, ↓reduceIte]
        | store l k =>
          have hwf : m.writing = false := by
            cases hm : m.writing with
            | false => rfl
            | true => have := hw hm; rw [hpc] at this; simp [Sophos.RacePc.isStoring] at this
          simp only [Sophos.raceStep, ha, hgi, hpc, hwf, Bool.false_eq_true, ↓reduceIte]
        | fetch k =>
          cases hres : ad.getLogs (Sophos.Unix startTime) k g <;>
            simp only [Sophos.raceStep, ha, hgi, hpc, hres, Bool.false_eq_true, ↓reduceIte]
        | rlock => simp only [Sophos.raceStep, ha, hgi, hpc, Bool.false_eq_true, ↓reduceIte]
        | runlock k => simp only [Sophos.raceStep, ha, hgi, hpc, Bool.false_eq_true, ↓reduceIte]
        | storing l k =>
          simp only [Sophos.raceStep, ha, hgi, hpc, Bool.false_eq_true, ↓reduceIte]
        | send l => simp only [Sophos.raceStep, ha, hgi, hpc, Bool.false_eq_true, ↓reduceIte]
        | done e =>
          simp only [Sophos.raceStep, ha, hgi, hpc, Bool.false_eq_true, ↓reduceIte]
    · cases hgi : groups[i]? with
      | none =>
        simp only [Sophos.raceStep, ha, hgi, Bool.false_eq_true, ↓reduceIte]
        exact hw
      | some g =>
        cases hpc : m.pcs i with
        | storing l k =>
          simp [Sophos.raceStep, ha, hgi, hpc]
        | store l k =>
          cases hm : m.writing with
          | true => have := hw hm; rw [hpc] at this; simp [Sophos.RacePc.isStoring] at this
          | false =>
            simp [Sophos.raceStep, ha, hgi, hpc, hm, Sophos.RacePc.isStoring]
        | read =>
          cases hm : m.writing with
          | true => have := hw hm; rw [hpc] at this; simp [Sophos.RacePc.isStoring] at this
          | false => simp [Sophos.raceStep, ha, hgi, hpc, hm]
        | fetch k =>
          cases hm : m.writing with
          | true => have := hw hm; rw [hpc] at this; simp [Sophos.RacePc.isStoring] at this
          | false =>
            cases hres : ad.getLogs (Sophos.Unix startTime) k g <;>
              simp [Sophos.raceStep, ha, hgi, hpc, hm, hres]
        | rlock =>
          cases hm : m.writing with
          | true => have := hw hm; rw [hpc] at this; simp [Sophos.RacePc.isStoring] at this
          | false => simp [Sophos.raceStep, ha, hgi, hpc, hm]
        | runlock k =>
          cases hm : m.writing with
          | true => have := hw hm; rw [hpc] at this; simp [Sophos.RacePc.isStoring] at this
          | false => simp [Sophos.raceStep, ha, hgi, hpc, hm]
        | send l =>
          cases hm : m.writing with
          | true => have := hw hm; rw [hpc] at this; simp [Sophos.RacePc.isStoring] at this
          | false => simp [Sophos.raceStep, ha, hgi, hpc, hm]
        | done e =>
          cases hm : m.writing with
          | true => have := hw hm; rw [hpc] at this; simp [Sophos.RacePc.isStoring] at this
          | false => simp [Sophos.raceStep, ha, hgi, hpc, hm]
  have hiter : ∀ (i n : Nat) (m : Sophos.RaceMachine),
      (m.aborted = false ∧ (m.writing = true → (m.pcs i).isStoring = true) ∧
        ∀ j, j ≠ i → (m.pcs j).isStoring = false) →
      (((Sophos.raceStep ad startTime groups i)^[n] m).aborted = false ∧
        (((Sophos.raceStep ad startTime groups i)^[n] m).writing = true →
          (((Sophos.raceStep ad startTime groups i)^[n] m).pcs i).isStoring = true) ∧
        ∀ j, j ≠ i →
          (((Sophos.raceStep ad startTime groups i)^[n] m).pcs j).isStoring = false) := by
    intro i n m hm
    induction n with
    | zero => exact hm
    | succ n ih =>
      rw [Function.iterate_succ_apply']
      exact hstep i _ ih
  have htask : ∀ (i : Nat) (m : Sophos.RaceMachine),
      (m.aborted = false ∧ m.writing = false ∧ ∀ j, (m.pcs j).isStoring = false) →
      ((Sophos.raceTask ad startTime groups i m).aborted = false ∧
        (Sophos.raceTask ad startTime groups i m).writing = false ∧
        ∀ j, ((Sophos.raceTask ad startTime groups i m).pcs j).isStoring = false) := by
    intro i m ⟨ha, hw, hs⟩
    have hL := hiter i 7 m ⟨ha, fun h => by rw [hw] at h; exact absurd h (by simp),
      fun j _ => hs j⟩
    have hpci : ((Sophos.raceTask ad startTime groups i m).pcs i).isStoring = false := by
      cases hgi : groups[i]? with
      | none =>
        have hfix : ∀ n : Nat, (Sophos.raceStep ad startTime groups i)^[n] m = m := by
          intro n
          induction n with
          | zero => rfl
          | succ n ih =>
            rw [Function.iterate_succ_apply', ih]
            simp [Sophos.raceStep, ha, hgi]
        unfold Sophos.raceTask
        rw [hfix 7]
        exact hs i
      | some g =>
        have hd := raceTask_done ad startTime groups i g hgi m hL.1
        cases hpcx : (Sophos.raceTask ad startTime groups i m).pcs i <;>
          first
          | rfl
          | (rw [hpcx] at hd; simp [Sophos.RacePc.isDone] at hd)
    refine ⟨hL.1, ?_, ?_⟩
    · cases hm : (Sophos.raceTask ad startTime groups i m).writing with
      | false => rfl
      | true =>
        have := hL.2.1 hm
        rw [show (Sophos.raceStep ad startTime groups i)^[7] m =
          Sophos.raceTask ad startTime groups i m from rfl, hpci] at this
        exact absurd this (by simp)
    · intro j
      by_cases hji : j = i
      · subst hji; exact hpci
      · exact hL.2.2 j hji
  have hfold : ∀ (l : List Nat) (m : Sophos.RaceMachine),
      (m.aborted = false ∧ m.writing = false ∧ ∀ j, (m.pcs j).isStoring = false) →
      (l.foldl (fun m j => Sophos.raceTask ad startTime groups j m) m).aborted = false := by
    intro l
    induction l with
    | nil => intro m hm; exact hm.1
    | cons j l ih => intro m hm; exact ih _ (htask j m hm)
  exact hfold _ _ ⟨rfl, rfl, fun _ => rfl⟩

theorem index_of_filter_singleton (P : ModuleGroup → Bool) (x : ModuleGroup) :
    ∀ groups : List ModuleGroup, groups.filter P = [x] →
      ∃ b : Nat, groups[b]? = some x ∧
        ∀ (i : Nat) (y : ModuleGroup), groups[i]? = some y → P y = true → i = b := by
  intro groups
  induction groups with
  | nil => intro h; simp at h
  | cons g rest ih =>
    intro h
    cases hP : P g with
    | true =>
      rw [List.filter_cons_of_pos hP] at h
      have hg : g = x := (List.cons.inj h).1
      have hrest : rest.filter P = [] := (List.cons.inj h).2
      refine ⟨0, by simp [hg], ?_⟩
      intro i y hy hPy
      cases i with
      | zero => rfl
      | succ k =>
        have hy' : rest[k]? = some y := by simpa using hy
        have hmem : y ∈ rest := List.getElem?_mem hy'
        have : y ∈ rest.filter P := List.mem_filter.mpr ⟨hmem, hPy⟩
        rw [hrest] at this
        exact absurd this (List.not_mem_nil _)
    | false =>
      rw [List.filter_cons_of_neg (by simp [hP])] at h
      obtain ⟨b, hb, hu⟩ := ih h
      refine ⟨b + 1, by simpa using hb, ?_⟩
      intro i y hy hPy
      cases i with
      | zero =>
        have : y = g := by simpa using hy.symm
        rw [this, hP] at hPy
        exact absurd hPy (by simp)
      | succ k =>
        have hy' : rest[k]? = some y := by simpa using hy
        have := hu k y hy' hPy
        omega

/-! ## Checkpoints -/

/-- With two groups there are interleavings in which the runtime ends the process: here
goroutine 1 has begun the map assignment of line 28 when goroutine 0 reads the map. -/
theorem pass_ended_by_race :
    (Sophos.raceGroups fixture 0 [tenant 13, tenant 7] [1, 1, 1, 1, 1, 0, 0]
      Sophos.Proc.init).aborted = true ∧
    (Sophos.mainCycleRace fixture 0 Sophos.Proc.init
      ⟨none, 300, .ok ⟨true, [tenant 13, tenant 7]⟩⟩ [1, 1, 1, 1, 1, 0, 0]).isNone = true := by
  constructor <;> decide

/-- C4 as stated fails: a pass over the groups 13, 7 and a second group with `ModuleID` 7,
where `getLogs` fails for group 13 and answers the token `"p2"` for the first group 7,
ends (the goroutines run one after the other) with `nextKeys[7] = "p3"`, the token of the
other group 7, not `"p2"`. -/
theorem failure_isolation_counterexample :
    (tenant 13).ModuleID ≠ (tenant 7).ModuleID ∧
    fixture.getLogs (Sophos.Unix 0) (Sophos.Proc.init.get (tenant 13).ModuleID) (tenant 13) =
      .error "401 Unauthorized" ∧
    fixture.getLogs (Sophos.Unix 0) (Sophos.Proc.init.get (tenant 7).ModuleID) (tenant 7) =
      .ok (["e1", "e2"], "p2") ∧
    (Sophos.mainCycleRace fixture 0 Sophos.Proc.init
      ⟨none, 300, .ok ⟨true, [tenant 13, tenant 7,
        ⟨7, "other-tenant", [⟨"api_key", "secret"⟩]⟩]⟩⟩ []).map
        (fun c => (c.pulls.length, c.proc.nextKeys 7)) = some (3, some "p3") ∧
    (Sophos.mainCycle fixture 0 Sophos.Proc.init
      ⟨none, 300, .ok ⟨true, [tenant 13, tenant 7,
        ⟨7, "other-tenant", [⟨"api_key", "secret"⟩]⟩]⟩⟩ []).proc.nextKeys 7 = some "p3" ∧
    (some "p3" : Option String) ≠ some "p2" := by
  refine ⟨by decide, rfl, rfl, by decide, by decide, by decide⟩

/-- C4, amended: in a pass of the sophos loop with an active configuration among whose
dispatched groups (the ones `PullLogs` is called for) `A` is the only one with its
`ModuleID` and `B` the only one with its `ModuleID`, where `getLogs` fails for `A` and
answers the token `t` for `B`: whatever the interleaving of the goroutines, when the pass
completes (the runtime has not ended the process over the unlocked map write),
`PullLogs` has been called for both, `nextKeys[B.ModuleID]` is `t`, `nextKeys[A.ModuleID]`
is what it was before the pass, and the next pass starts at this pass's `endTime + 1ns`.
The pass does complete when the goroutines run one after the other, and the two
`ModuleID`s differ. -/
theorem failure_isolation (ad : Sophos.Adapter) (startTime : Int) (p : Sophos.Proc)
    (tick : Tick) (schedule : List Nat) (cfg : ConfigurationSection) (A B : ModuleGroup)
    (e : String) (logs : List String) (t : String)
    (h : tick.config = .ok cfg) (hon : cfg.ModuleActive = true)
    (hA : (Sophos.fanOut cfg.ConfigurationGroups).2.filter
      (fun g => g.ModuleID = A.ModuleID) = [A])
    (hB : (Sophos.fanOut cfg.ConfigurationGroups).2.filter
      (fun g => g.ModuleID = B.ModuleID) = [B])
    (hfail : ad.getLogs (Sophos.Unix startTime) (p.get A.ModuleID) A = .error e)
    (hok : ad.getLogs (Sophos.Unix startTime) (p.get B.ModuleID) B = .ok (logs, t)) :
    (∀ c, Sophos.mainCycleRace ad startTime p tick schedule = some c →
      A ∈ c.pulls ∧ B ∈ c.pulls ∧
      c.proc.nextKeys B.ModuleID = some t ∧
      c.proc.nextKeys A.ModuleID = p.nextKeys A.ModuleID ∧
      c.nextStart = tick.now + 1) ∧
    (∃ c, Sophos.mainCycleRace ad startTime p tick [] = some c) ∧
    A.ModuleID ≠ B.ModuleID := by
  have hAm : A ∈ (Sophos.fanOut cfg.ConfigurationGroups).2 := by
    have : A ∈ (Sophos.fanOut cfg.ConfigurationGroups).2.filter
        (fun g => g.ModuleID = A.ModuleID) := by rw [hA]; exact List.mem_singleton_self A
    exact (List.mem_filter.mp this).1
  have hBm : B ∈ (Sophos.fanOut cfg.ConfigurationGroups).2 := by
    have : B ∈ (Sophos.fanOut cfg.ConfigurationGroups).2.filter
        (fun g => g.ModuleID = B.ModuleID) := by rw [hB]; exact List.mem_singleton_self B
    exact (List.mem_filter.mp this).1
  have hAonly : ∀ g ∈ (Sophos.fanOut cfg.ConfigurationGroups).2,
      g.ModuleID = A.ModuleID → g = A := by
    intro g hg hid
    have : g ∈ (Sophos.fanOut cfg.ConfigurationGroups).2.filter
        (fun g => g.ModuleID = A.ModuleID) := List.mem_filter.mpr ⟨hg, decide_eq_true hid⟩
    rw [hA] at this
    exact List.mem_singleton.mp this
  have hne : A.ModuleID ≠ B.ModuleID := by
    intro hid
    have hBA : B = A := hAonly B hBm hid.symm
    subst hBA
    rw [hfail] at hok
    exact absurd hok (by simp)
  refine ⟨?_, ?_, hne⟩
  · intro c hc
    simp only [Sophos.mainCycleRace, h, hon, if_true] at hc
    cases hab : (Sophos.raceGroups ad startTime (Sophos.fanOut cfg.ConfigurationGroups).2
        schedule p).aborted with
    | true => rw [hab] at hc; simp at hc
    | false =>
      rw [hab] at hc
      simp only [Bool.false_eq_true, ↓reduceIte, Option.some.injEq] at hc
      subst hc
      refine ⟨hAm, hBm, ?_, ?_, rfl⟩
      · obtain ⟨b, hb, hu⟩ := index_of_filter_singleton
          (fun g => decide (g.ModuleID = B.ModuleID)) B _ hB
        exact race_succeeding_key_updated ad startTime _ schedule p b B logs t hb
          (fun i g hg hid => hu i g hg (decide_eq_true hid)) hok hab
      · apply race_failing_key_unchanged
        intro g hg hid
        rw [hAonly g hg hid]
        exact ⟨e, hfail⟩
  · have hs := raceGroups_serial ad startTime (Sophos.fanOut cfg.ConfigurationGroups).2 p
    simp only [Sophos.mainCycleRace, h, hon, if_true, hs, Bool.false_eq_true, ↓reduceIte]
    exact ⟨_, rfl⟩

theorem failure_isolation_witness :
    fixture.getLogs (Sophos.Unix 0) (Sophos.Proc.init.get (tenant 13).ModuleID) (tenant 13) =
      .error "401 Unauthorized" ∧
    fixture.getLogs (Sophos.Unix 0) (Sophos.Proc.init.get (tenant 7).ModuleID) (tenant 7) =
      .ok (["e1", "e2"], "p2") ∧
    (Sophos.fanOut [tenant 13, tenant 7]).2.filter
      (fun g => g.ModuleID = (tenant 13).ModuleID) = [tenant 13] ∧
    (Sophos.fanOut [tenant 13, tenant 7]).2.filter
      (fun g => g.ModuleID = (tenant 7).ModuleID) = [tenant 7] ∧
    (Sophos.mainCycleRace fixture 0 Sophos.Proc.init
      ⟨none, 300, .ok ⟨true, [tenant 13, tenant 7]⟩⟩ [1, 0, 1, 1, 0, 1]).map
        (fun c => (c.proc.nextKeys 7, c.proc.nextKeys 13, c.nextStart)) =
      some (some "p2", none, 300 + 1) := by
  have h := failure_isolation fixture 0 Sophos.Proc.init
    ⟨none, 300, .ok ⟨true, [tenant 13, tenant 7]⟩⟩ [1, 0, 1, 1, 0, 1]
    ⟨true, [tenant 13, tenant 7]⟩ (tenant 13) (tenant 7) "401 Unauthorized" ["e1", "e2"] "p2"
    rfl rfl (by decide) (by decide) rfl rfl
  refine ⟨rfl, rfl, by decide, by decide, ?_⟩
  cases hc : Sophos.mainCycleRace fixture 0 Sophos.Proc.init
      ⟨none, 300, .ok ⟨true, [tenant 13, tenant 7]⟩⟩ [1, 0, 1, 1, 0, 1] with
  | none =>
    have hsome : (Sophos.mainCycleRace fixture 0 Sophos.Proc.init
      ⟨none, 300, .ok ⟨true, [tenant 13, tenant 7]⟩⟩ [1, 0, 1, 1, 0, 1]).isSome = true := by
      decide
    rw [hc] at hsome
    exact absurd hsome (by simp)
  | some c =>
    obtain ⟨_, _, hb, ha, hn⟩ := h.1 c hc
    have hb' : c.proc.nextKeys 7 = some "p2" := hb
    have ha' : c.proc.nextKeys 13 = none := ha
    have hn' : c.nextStart = 300 + 1 := hn
    simp only [Option.map_some']
    rw [hb', ha', hn']

/-- C5: `PullLogs` calls `getLogs` once, with the checkpoint stored for the group as
`prevKey` (the empty string when the group has none); when `getLogs` and `SendToLogstash`
both succeed it returns no error, stores exactly the returned token and forwards exactly
the returned records, in their order.  Hence two consecutive passes of the sophos loop
over the single configured group, the first fetch answering `("p2", [e1, e2])` and the
second, called with `"p2"`, answering `("p3", [e3])`, end with the checkpoint `"p3"`, the
fetches having been made with the old checkpoint and then with `"p2"`, and the forwarded
batches being `[e1, e2]` then `[e3]`. -/
theorem cursor_chaining (ad : Sophos.Adapter) (group : ModuleGroup) (startTime : Int)
    (p : Sophos.Proc) :
    Sophos.fetches (Sophos.PullLogs ad group startTime p).1.trace =
      Sophos.fetches p.trace ++ [(Sophos.Unix startTime, p.get group.ModuleID, group)] ∧
    (p.nextKeys group.ModuleID = none → p.get group.ModuleID = "") ∧
    (∀ logs token,
      ad.getLogs (Sophos.Unix startTime) (p.get group.ModuleID) group = .ok (logs, token) →
      ad.SendToLogstash logs = none →
      (Sophos.PullLogs ad group startTime p).2 = none ∧
      (Sophos.PullLogs ad group startTime p).1.nextKeys group.ModuleID = some token ∧
      (Sophos.PullLogs ad group startTime p).1.get group.ModuleID = token ∧
      Sophos.forwarded (Sophos.PullLogs ad group startTime p).1.trace =
        Sophos.forwarded p.trace ++ [logs]) ∧
    (∀ (tick1 tick2 : Tick) (schedule1 schedule2 : List Nat) (e1 e2 e3 : String),
      tick1.config = .ok ⟨true, [group]⟩ → tick2.config = .ok ⟨true, [group]⟩ →
      (∀ cnf ∈ group.Configurations, TrimSpace cnf.ConfValue ≠ "") →
      ad.getLogs (Sophos.Unix startTime) (p.get group.ModuleID) group =
        .ok ([e1, e2], "p2") →
      ad.getLogs (Sophos.Unix (tick1.now + 1)) "p2" group = .ok ([e3], "p3") →
      ad.SendToLogstash [e1, e2] = none → ad.SendToLogstash [e3] = none →
      ∃ c1 c2, Sophos.mainLoop ad startTime p [(tick1, schedule1), (tick2, schedule2)] =
          [c1, c2] ∧
        c1.proc.get group.ModuleID = "p2" ∧
        c2.proc.get group.ModuleID = "p3" ∧
        Sophos.fetches c2.proc.trace = Sophos.fetches p.trace ++
          [(Sophos.Unix startTime, p.get group.ModuleID, group),
           (Sophos.Unix (tick1.now + 1), "p2", group)] ∧
        Sophos.forwarded c2.proc.trace = Sophos.forwarded p.trace ++ [[e1, e2], [e3]]) := by
  have hsucc : ∀ (s : Int) (q : Sophos.Proc) (logs : List String) (token : String),
      ad.getLogs (Sophos.Unix s) (q.get group.ModuleID) group = .ok (logs, token) →
      ad.SendToLogstash logs = none →
      (Sophos.PullLogs ad group s q).2 = none ∧
      (Sophos.PullLogs ad group s q).1.nextKeys group.ModuleID = some token ∧
      (Sophos.PullLogs ad group s q).1.get group.ModuleID = token ∧
      Sophos.forwarded (Sophos.PullLogs ad group s q).1.trace =
        Sophos.forwarded q.trace ++ [logs] ∧
      Sophos.fetches (Sophos.PullLogs ad group s q).1.trace =
        Sophos.fetches q.trace ++ [(Sophos.Unix s, q.get group.ModuleID, group)] := by
    intro s q logs token hget hsend
    rw [pullLogs_fetch_ok ad group s q logs token hget]
    refine ⟨hsend, by simp, by simp [Sophos.Proc.get], ?_, ?_⟩
    · simp [forwarded_append, Sophos.forwarded]
    · simp [fetches_append, Sophos.fetches]
  refine ⟨?_, ?_, ?_, ?_⟩
  · cases hres : ad.getLogs (Sophos.Unix startTime) (p.get group.ModuleID) group with
    | error e =>
      rw [pullLogs_fetch_error ad group startTime p e hres]
      simp [fetches_append, Sophos.fetches]
    | ok r =>
      rw [pullLogs_fetch_ok ad group startTime p r.1 r.2 hres]
      simp [fetches_append, Sophos.fetches]
  · intro hnone
    simp [Sophos.Proc.get, hnone]
  · intro logs token hget hsend
    obtain ⟨h1, h2, h3, h4, _⟩ := hsucc startTime p logs token hget hsend
    exact ⟨h1, h2, h3, h4⟩
  · intro tick1 tick2 schedule1 schedule2 e1 e2 e3 hc1 hc2 hconf hget1 hget2 hsend1 hsend2
    obtain ⟨hp1, hn1, _⟩ := mainCycle_single ad startTime p tick1 schedule1 group hc1 hconf
    obtain ⟨hp2, _, _⟩ := mainCycle_single ad (tick1.now + 1)
      (Sophos.PullLogs ad group startTime p).1 tick2 schedule2 group hc2 hconf
    obtain ⟨_, _, hk1, hf1, hq1⟩ := hsucc startTime p [e1, e2] "p2" hget1 hsend1
    have hget2' : ad.getLogs (Sophos.Unix (tick1.now + 1))
        ((Sophos.PullLogs ad group startTime p).1.get group.ModuleID) group =
        .ok ([e3], "p3") := by rw [hk1]; exact hget2
    obtain ⟨_, _, hk2, hf2, hq2⟩ := hsucc (tick1.now + 1)
      (Sophos.PullLogs ad group startTime p).1 [e3] "p3" hget2' hsend2
    refine ⟨Sophos.mainCycle ad startTime p tick1 schedule1,
      Sophos.mainCycle ad (Sophos.mainCycle ad startTime p tick1 schedule1).nextStart
        (Sophos.mainCycle ad startTime p tick1 schedule1).proc tick2 schedule2,
      ?_, ?_, ?_, ?_, ?_⟩
    · simp only [Sophos.mainLoop]
    · rw [hp1]; exact hk1
    · rw [hn1, hp1, hp2]; exact hk2
    · rw [hn1, hp1, hp2, hq2, hq1, hk1]; simp
    · rw [hn1, hp1, hp2, hf2, hf1]; simp

theorem cursor_chaining_witness :
    fixture.getLogs (Sophos.Unix 0) (Sophos.Proc.init.get (tenant 7).ModuleID) (tenant 7) =
      .ok (["e1", "e2"], "p2") ∧
    fixture.getLogs (Sophos.Unix (300 + 1)) "p2" (tenant 7) = .ok (["e3"], "p3") ∧
    (Sophos.PullLogs fixture (tenant 7) 0 Sophos.Proc.init).1.nextKeys 7 = some "p2" ∧
    Sophos.forwarded (Sophos.PullLogs fixture (tenant 7) 0 Sophos.Proc.init).1.trace =
      [["e1", "e2"]] ∧
    (∃ c1 c2, Sophos.mainLoop fixture 0 Sophos.Proc.init
        [(⟨none, 300, .ok ⟨true, [tenant 7]⟩⟩, [0, 0]),
         (⟨none, 600, .ok ⟨true, [tenant 7]⟩⟩, [])] = [c1, c2] ∧
      c2.proc.get 7 = "p3" ∧
      Sophos.forwarded c2.proc.trace = [["e1", "e2"], ["e3"]]) :=
  have h := cursor_chaining fixture (tenant 7) 0 Sophos.Proc.init
  have h1 := h.2.2.1 ["e1", "e2"] "p2" rfl rfl
  have h2 := h.2.2.2 ⟨none, 300, .ok ⟨true, [tenant 7]⟩⟩ ⟨none, 600, .ok ⟨true, [tenant 7]⟩⟩
    [0, 0] [] "e1" "e2" "e3" rfl rfl (by decide) rfl rfl rfl rfl
  ⟨rfl, rfl, h1.2.1, h1.2.2.2, by
    obtain ⟨c1, c2, hl, _, hk, _, hf⟩ := h2
    exact ⟨c1, c2, hl, hk, hf⟩⟩

/-! ## The sliding window -/

theorem aws_windows (startTime : Int) (ticks : List Tick)
    (hok : ∀ t ∈ ticks, ∃ cfg, t.config = .ok cfg) :
    (Aws.mainLoop startTime ticks).map (fun c => (c.startTime, c.endTime)) =
      windowsFrom startTime (ticks.map (fun t => t.now)) := by
  induction ticks generalizing startTime with
  | nil => rfl
  | cons t ts ih =>
    obtain ⟨cfg, hcfg⟩ := hok t (List.mem_cons_self _ _)
    have hn : (Aws.mainCycle startTime t).nextStart = t.now + 1 := by
      simp [Aws.mainCycle, hcfg]
    have hw : ((Aws.mainCycle startTime t).startTime, (Aws.mainCycle startTime t).endTime) =
        (startTime, t.now) := by
      simp [Aws.mainCycle, hcfg]
    simp only [Aws.mainLoop, List.map_cons, windowsFrom, hn, hw]
    rw [ih (t.now + 1) (fun u hu => hok u (List.mem_cons_of_mem _ hu))]

theorem sophos_windows (ad : Sophos.Adapter) (startTime : Int) (p : Sophos.Proc)
    (ticks : List (Tick × List Nat)) (hok : ∀ t ∈ ticks, ∃ cfg, t.1.config = .ok cfg) :
    (Sophos.mainLoop ad startTime p ticks).map (fun c => (c.startTime, c.endTime)) =
      windowsFrom startTime (ticks.map (fun t => t.1.now)) := by
  induction ticks generalizing startTime p with
  | nil => rfl
  | cons t ts ih =>
    obtain ⟨tick, schedule⟩ := t
    obtain ⟨cfg, hcfg⟩ := hok (tick, schedule) (List.mem_cons_self _ _)
    have hcfg' : tick.config = .ok cfg := hcfg
    have hn : (Sophos.mainCycle ad startTime p tick schedule).nextStart = tick.now + 1 := by
      simp [Sophos.mainCycle, hcfg']
    have hw : ((Sophos.mainCycle ad startTime p tick schedule).startTime,
        (Sophos.mainCycle ad startTime p tick schedule).endTime) = (startTime, tick.now) := by
      simp [Sophos.mainCycle, hcfg']
    simp only [Sophos.mainLoop, List.map_cons, windowsFrom, hn, hw]
    rw [ih (tick.now + 1) _ (fun u hu => hok u (List.mem_cons_of_mem _ hu))]

theorem windowsFrom_cover (x : Int) (ends : List Int) :
    ∀ start : Int, (∀ e ∈ ends, start ≤ e) → ends.Pairwise (fun a b => a < b) →
      ((windowsFrom start ends).filter (fun w => w.1 ≤ x ∧ x < w.2)).length =
        if start ≤ x ∧ x < ends.getLast?.getD start ∧ x ∉ ends.dropLast then 1 else 0 := by
  induction ends with
  | nil =>
    intro start _ _
    have : ¬ (start ≤ x ∧ x < start) := by omega
    simp [windowsFrom, this]
  | cons e rest ih =>
    intro start hstart hpair
    have hrest : ∀ e2 ∈ rest, e < e2 := (List.pairwise_cons.mp hpair).1
    have ih2 := ih (e + 1) (fun e2 h2 => by have := hrest e2 h2; omega)
      (List.pairwise_cons.mp hpair).2
    have hse : start ≤ e := hstart e (List.mem_cons_self _ _)
    cases rest with
    | nil =>
      by_cases hc : start ≤ x ∧ x < e <;> simp [windowsFrom, List.filter_cons, hc]
    | cons e2 rest2 =>
      have hlast : (e :: e2 :: rest2).getLast?.getD start = (e2 :: rest2).getLast?.getD (e + 1) := by
        simp [List.getLast?_cons_cons, List.getLast?_eq_getLast, Option.getD]
      have hlastmem : (e2 :: rest2).getLast?.getD (e + 1) ∈ e2 :: rest2 := by
        rw [List.getLast?_eq_getLast _ (List.cons_ne_nil _ _)]
        exact List.getLast_mem _
      have hlastgt : e < (e2 :: rest2).getLast?.getD (e + 1) := hrest _ hlastmem
      have hdrop : (e :: e2 :: rest2).dropLast = e :: (e2 :: rest2).dropLast := rfl
      have hdropgt : ∀ y ∈ (e2 :: rest2).dropLast, e < y := fun y hy =>
        hrest y (List.dropLast_subset _ hy)
      rw [hlast, hdrop, show windowsFrom start (e :: e2 :: rest2) =
        (start, e) :: windowsFrom (e + 1) (e2 :: rest2) from rfl, List.filter_cons]
      rcases lt_trichotomy x e with hx | hx | hx
      · have h0 : ¬ (e + 1 ≤ x ∧ x < (e2 :: rest2).getLast?.getD (e + 1) ∧
            x ∉ (e2 :: rest2).dropLast) := by omega
        have hnd : x ∉ (e2 :: rest2).dropLast := fun hy => by
          have := hdropgt x hy; omega
        rw [if_neg h0] at ih2
        by_cases hsx : start ≤ x
        · have h1 : start ≤ x ∧ x < (e2 :: rest2).getLast?.getD (e + 1) ∧
              x ∉ e :: (e2 :: rest2).dropLast := by
            refine ⟨hsx, by omega, ?_⟩
            simp only [List.mem_cons, not_or]
            exact ⟨by omega, hnd⟩
          rw [if_pos h1]
          have hd : decide (start ≤ x ∧ x < e) = true := decide_eq_true ⟨hsx, hx⟩
          simp only [hd, ↓reduceIte, List.length_cons, ih2]
        · have h1 : ¬ (start ≤ x ∧ x < (e2 :: rest2).getLast?.getD (e + 1) ∧
              x ∉ e :: (e2 :: rest2).dropLast) := fun h => hsx h.1
          rw [if_neg h1]
          have hd : decide (start ≤ x ∧ x < e) = false := decide_eq_false (fun h => hsx h.1)
          simp only [hd, Bool.false_eq_true, ↓reduceIte]
          exact ih2
      · subst hx
        have h0 : ¬ (x + 1 ≤ x ∧ x < (e2 :: rest2).getLast?.getD (x + 1) ∧
            x ∉ (e2 :: rest2).dropLast) := by omega
        rw [if_neg h0] at ih2
        have h1 : ¬ (start ≤ x ∧ x < (e2 :: rest2).getLast?.getD (x + 1) ∧
            x ∉ x :: (e2 :: rest2).dropLast) := by simp
        rw [if_neg h1]
        have hd : decide (start ≤ x ∧ x < x) = false := decide_eq_false (by omega)
        simp only [hd, Bool.false_eq_true, ↓reduceIte]
        exact ih2
      · have hd : decide (start ≤ x ∧ x < e) = false := decide_eq_false (by omega)
        simp only [hd, Bool.false_eq_true, ↓reduceIte]
        rw [ih2]
        have hiff : (e + 1 ≤ x ∧ x < (e2 :: rest2).getLast?.getD (e + 1) ∧
            x ∉ (e2 :: rest2).dropLast) ↔
            (start ≤ x ∧ x < (e2 :: rest2).getLast?.getD (e + 1) ∧
              x ∉ e :: (e2 :: rest2).dropLast) := by
          simp only [List.mem_cons, not_or]
          constructor
          · rintro ⟨_, h2, h3⟩
            exact ⟨by omega, h2, by omega, h3⟩
          · rintro ⟨_, h2, _, h3⟩
            exact ⟨by omega, h2, h3⟩
        simp only [hiff]

theorem windowsFrom_cover_closed (x : Int) (ends : List Int) :
    ∀ start : Int, (∀ e ∈ ends, start ≤ e) → ends.Pairwise (fun a b => a < b) →
      ((windowsFrom start ends).filter (fun w => w.1 ≤ x ∧ x ≤ w.2)).length =
        if start ≤ x ∧ x ≤ ends.getLast?.getD (start - 1) then 1 else 0 := by
  induction ends with
  | nil =>
    intro start _ _
    have : ¬ (start ≤ x ∧ x ≤ start - 1) := by omega
    simp [windowsFrom, this]
  | cons e rest ih =>
    intro start hstart hpair
    have hrest : ∀ e2 ∈ rest, e < e2 := (List.pairwise_cons.mp hpair).1
    have ih2 := ih (e + 1) (fun e2 h2 => by have := hrest e2 h2; omega)
      (List.pairwise_cons.mp hpair).2
    have hse : start ≤ e := hstart e (List.mem_cons_self _ _)
    have hlast : (e :: rest).getLast?.getD (start - 1) = rest.getLast?.getD e := by
      rw [List.getLast?_cons]; rfl
    have hge : e ≤ rest.getLast?.getD e := by
      cases hl : rest.getLast? with
      | none => simp
      | some l =>
        have := hrest l (List.mem_of_getLast?_eq_some hl)
        simp only [Option.getD_some]
        omega
    rw [show e + 1 - 1 = e by omega] at ih2
    rw [hlast, show windowsFrom start (e :: rest) = (start, e) :: windowsFrom (e + 1) rest
      from rfl, List.filter_cons]
    by_cases hx : x ≤ e
    · have h0 : ¬ (e + 1 ≤ x ∧ x ≤ rest.getLast?.getD e) := by omega
      rw [if_neg h0] at ih2
      by_cases hsx : start ≤ x
      · have hd : decide (start ≤ x ∧ x ≤ e) = true := decide_eq_true ⟨hsx, hx⟩
        have h1 : start ≤ x ∧ x ≤ rest.getLast?.getD e := ⟨hsx, by omega⟩
        simp only [hd, ↓reduceIte, List.length_cons, ih2, if_pos h1]
      · have hd : decide (start ≤ x ∧ x ≤ e) = false := decide_eq_false (fun h => hsx h.1)
        have h1 : ¬ (start ≤ x ∧ x ≤ rest.getLast?.getD e) := fun h => hsx h.1
        simp only [hd, Bool.false_eq_true, ↓reduceIte, ih2, if_neg h1]
    · have hd : decide (start ≤ x ∧ x ≤ e) = false := decide_eq_false (fun h => hx h.2)
      simp only [hd, Bool.false_eq_true, ↓reduceIte, ih2]
      have hiff : (e + 1 ≤ x ∧ x ≤ rest.getLast?.getD e) ↔
          (start ≤ x ∧ x ≤ rest.getLast?.getD e) := by
        constructor
        · rintro ⟨_, h2⟩; exact ⟨by omega, h2⟩
        · rintro ⟨_, h2⟩; exact ⟨by omega, h2⟩
      simp only [hiff]

/-- C1 as stated fails: two consecutive passes with a successful fetch, ending at 300 and
at 600 and started from 0, have the windows `[0, 300)` and `[301, 600)`; the instant 300
lies in `[0, 600)` and in neither window. -/
theorem window_continuity_counterexample :
    (Aws.mainLoop 0 [⟨none, 300, .ok ⟨true, [tenant 7]⟩⟩,
      ⟨none, 600, .ok ⟨true, [tenant 7]⟩⟩]).map (fun c => (c.startTime, c.endTime)) =
        [(0, 300), (301, 600)] ∧
    (Sophos.mainLoop fixture 0 Sophos.Proc.init [(⟨none, 300, .ok ⟨true, [tenant 7]⟩⟩, []),
      (⟨none, 600, .ok ⟨true, [tenant 7]⟩⟩, [])]).map (fun c => (c.startTime, c.endTime)) =
        [(0, 300), (301, 600)] ∧
    ((0 : Int) ≤ 300 ∧ (300 : Int) < 600) ∧
    (Aws.mainLoop 0 [⟨none, 300, .ok ⟨true, [tenant 7]⟩⟩,
      ⟨none, 600, .ok ⟨true, [tenant 7]⟩⟩]).filter
        (fun c => c.startTime ≤ 300 ∧ 300 < c.endTime) = [] ∧
    ((Sophos.mainLoop fixture 0 Sophos.Proc.init [(⟨none, 300, .ok ⟨true, [tenant 7]⟩⟩, []),
      (⟨none, 600, .ok ⟨true, [tenant 7]⟩⟩, [])]).filter
        (fun c => c.startTime ≤ 300 ∧ 300 < c.endTime)).length = 0 := by
  refine ⟨by decide, by decide, by decide, by decide, by decide⟩

/-- C1, amended: for consecutive passes of the aws or sophos loop whose configuration fetch
succeeds, with strictly increasing clock readings none of which is before the first
`startTime`: the windows taken as the closed `[startTime, endTime]` at nanosecond
resolution cover `[firstStart, lastEnd]` with no gap and no overlap (every instant of that
range lies in exactly one window, every other instant in none); taken as the half-open
`[startTime, endTime)` they still do not overlap, and the instants of
`[firstStart, lastEnd)` that lie in a window are all of them except the `endTime` of every
pass but the last, which lies in no window. -/
theorem window_coverage (ad : Sophos.Adapter) (p : Sophos.Proc) (startTime : Int)
    (ticks : List (Tick × List Nat)) (x : Int) (hne : ticks ≠ [])
    (hok : ∀ t ∈ ticks, ∃ cfg, t.1.config = .ok cfg)
    (hfirst : ∀ t ∈ ticks, startTime ≤ t.1.now)
    (hclock : ticks.Pairwise (fun a b => a.1.now < b.1.now)) :
    (((Aws.mainLoop startTime (ticks.map (fun t => t.1))).filter
        (fun c => c.startTime ≤ x ∧ x ≤ c.endTime)).length =
      if startTime ≤ x ∧ x ≤ (ticks.getLast hne).1.now then 1 else 0) ∧
    (((Aws.mainLoop startTime (ticks.map (fun t => t.1))).filter
        (fun c => c.startTime ≤ x ∧ x < c.endTime)).length =
      if startTime ≤ x ∧ x < (ticks.getLast hne).1.now ∧
        x ∉ ticks.dropLast.map (fun t => t.1.now) then 1 else 0) ∧
    (((Sophos.mainLoop ad startTime p ticks).filter
        (fun c => c.startTime ≤ x ∧ x ≤ c.endTime)).length =
      if startTime ≤ x ∧ x ≤ (ticks.getLast hne).1.now then 1 else 0) ∧
    (((Sophos.mainLoop ad startTime p ticks).filter
        (fun c => c.startTime ≤ x ∧ x < c.endTime)).length =
      if startTime ≤ x ∧ x < (ticks.getLast hne).1.now ∧
        x ∉ ticks.dropLast.map (fun t => t.1.now) then 1 else 0) := by
  have hends : ∀ e ∈ ticks.map (fun t => t.1.now), startTime ≤ e := by
    intro e he
    obtain ⟨t, ht, rfl⟩ := List.mem_map.mp he
    exact hfirst t ht
  have hpair : (ticks.map (fun t => t.1.now)).Pairwise (fun a b => a < b) :=
    List.pairwise_map.mpr hclock
  have hlast : ∀ d : Int, (ticks.map (fun t => t.1.now)).getLast?.getD d =
      (ticks.getLast hne).1.now := by
    intro d
    rw [List.getLast?_map, List.getLast?_eq_getLast _ hne]
    rfl
  have hopen := windowsFrom_cover x (ticks.map (fun t => t.1.now)) startTime hends hpair
  have hclosed := windowsFrom_cover_closed x (ticks.map (fun t => t.1.now)) startTime hends
    hpair
  rw [hlast, ← List.map_dropLast] at hopen
  rw [hlast] at hclosed
  have haws := aws_windows startTime (ticks.map (fun t => t.1)) (by
    intro t ht
    obtain ⟨u, hu, rfl⟩ := List.mem_map.mp ht
    exact hok u hu)
  have hsophos := sophos_windows ad startTime p ticks hok
  rw [List.map_map] at haws
  have hcomp : ((fun t : Tick => t.now) ∘ fun t : Tick × List Nat => t.1) =
      fun t => t.1.now := rfl
  rw [hcomp] at haws
  refine ⟨?_, ?_, ?_, ?_⟩
  · rw [← hclosed, ← haws, List.filter_map, List.length_map]
    rfl
  · rw [← hopen, ← haws, List.filter_map, List.length_map]
    rfl
  · rw [← hclosed, ← hsophos, List.filter_map, List.length_map]
    rfl
  · rw [← hopen, ← hsophos, List.filter_map, List.length_map]
    rfl

theorem window_coverage_witness :
    ((0 : Int) ≤ 300 ∧ (300 : Int) < 600) ∧
    [((⟨none, 300, .ok ⟨true, [tenant 7]⟩⟩ : Tick), ([] : List Nat)),
      (⟨none, 600, .ok ⟨true, [tenant 7]⟩⟩, [])].Pairwise (fun a b => a.1.now < b.1.now) ∧
    ((Aws.mainLoop 0 [⟨none, 300, .ok ⟨true, [tenant 7]⟩⟩,
      ⟨none, 600, .ok ⟨true, [tenant 7]⟩⟩]).filter
        (fun c => c.startTime ≤ 300 ∧ 300 ≤ c.endTime)).length = 1 ∧
    ((Aws.mainLoop 0 [⟨none, 300, .ok ⟨true, [tenant 7]⟩⟩,
      ⟨none, 600, .ok ⟨true, [tenant 7]⟩⟩]).filter
        (fun c => c.startTime ≤ 300 ∧ 300 < c.endTime)).length = 0 ∧
    ((Sophos.mainLoop fixture 0 Sophos.Proc.init [(⟨none, 300, .ok ⟨true, [tenant 7]⟩⟩, []),
      (⟨none, 600, .ok ⟨true, [tenant 7]⟩⟩, [])]).filter
        (fun c => c.startTime ≤ 300 ∧ 300 ≤ c.endTime)).length = 1 ∧
    ((Sophos.mainLoop fixture 0 Sophos.Proc.init [(⟨none, 300, .ok ⟨true, [tenant 7]⟩⟩, []),
      (⟨none, 600, .ok ⟨true, [tenant 7]⟩⟩, [])]).filter
        (fun c => c.startTime ≤ 300 ∧ 300 < c.endTime)).length = 0 :=
  have hfirst : ∀ t ∈ [((⟨none, 300, .ok ⟨true, [tenant 7]⟩⟩ : Tick), ([] : List Nat)),
      (⟨none, 600, .ok ⟨true, [tenant 7]⟩⟩, [])], (0 : Int) ≤ t.1.now := by
    intro t ht
    simp only [List.mem_cons, List.mem_singleton, List.not_mem_nil, or_false] at ht
    rcases ht with rfl | rfl <;> decide
  have hclock : [((⟨none, 300, .ok ⟨true, [tenant 7]⟩⟩ : Tick), ([] : List Nat)),
      (⟨none, 600, .ok ⟨true, [tenant 7]⟩⟩, [])].Pairwise (fun a b => a.1.now < b.1.now) := by
    simp
  have h := window_coverage fixture Sophos.Proc.init 0
    [(⟨none, 300, .ok ⟨true, [tenant 7]⟩⟩, []), (⟨none, 600, .ok ⟨true, [tenant 7]⟩⟩, [])] 300
    (by simp)
    (by
      intro t ht
      simp only [List.mem_cons, List.mem_singleton, List.not_mem_nil, or_false] at ht
      rcases ht with rfl | rfl <;> exact ⟨_, rfl⟩)
    hfirst hclock
  ⟨by decide, hclock, h.1.trans (by decide), h.2.1.trans (by decide),
    h.2.2.1.trans (by decide), h.2.2.2.trans (by decide)⟩

/-! ## The mutex -/

/-- Whenever `getLogs` succeeds, the events `PullLogs` adds break the locking rule: the map
write comes after `RUnlock`, with no lock held. -/
theorem pullLogs_breaks_locking (ad : Sophos.Adapter) (group : ModuleGroup) (startTime : Int)
    (p : Sophos.Proc) (logs : List String) (newNextKey : String)
    (h : ad.getLogs (Sophos.Unix startTime) (p.get group.ModuleID) group =
      .ok (logs, newNextKey)) :
    lockDisciplined .no ((Sophos.PullLogs ad group startTime p).1.trace.drop p.trace.length) =
      false := by
  rw [pullLogs_fetch_ok ad group startTime p logs newNextKey h]
  simp [List.append_assoc, lockDisciplined]

/-- C8: the code breaks the locking rule.  In `PullLogs` for a group whose fetch succeeds
the map read is made under the read lock, but the map write is made after `RUnlock` with
no lock held, so the events of the goroutine do not satisfy the rule (they would with
`Lock`/`Unlock` around the write).  With two groups in a pass there is an interleaving in
which goroutine 1 writes `nextKeys` while goroutine 0 holds the read lock and is about to
read the map. -/
theorem checkpoint_write_unlocked :
    (Sophos.PullLogs fixture (tenant 7) 0 Sophos.Proc.init).1.trace =
      [.RLock, .mapRead 7, .RUnlock, .getLogs 0 "" (tenant 7), .mapWrite 7 "p2",
        .SendToLogstash ["e1", "e2"]] ∧
    lockDisciplined .no (Sophos.PullLogs fixture (tenant 7) 0 Sophos.Proc.init).1.trace =
      false ∧
    lockDisciplined .no [.RLock, .mapRead 7, .RUnlock, .getLogs 0 "" (tenant 7), .Lock,
      .mapWrite 7 "p2", .Unlock, .SendToLogstash ["e1", "e2"]] = true ∧
    (Sophos.runSchedule fixture 0 [tenant 8, tenant 7] [0, 1, 1, 1, 1]
      ⟨Sophos.Proc.init, fun _ => .rlock⟩).proc.readers = 1 ∧
    (Sophos.runSchedule fixture 0 [tenant 8, tenant 7] [0, 1, 1, 1, 1]
      ⟨Sophos.Proc.init, fun _ => .rlock⟩).pcs 0 = .read ∧
    (Sophos.runSchedule fixture 0 [tenant 8, tenant 7] [0, 1, 1, 1, 1]
      ⟨Sophos.Proc.init, fun _ => .rlock⟩).pcs 1 = .store ["e1", "e2"] "p2" ∧
    (Sophos.runSchedule fixture 0 [tenant 8, tenant 7] [0, 1, 1, 1, 1]
      ⟨Sophos.Proc.init, fun _ => .rlock⟩).proc.nextKeys 7 = none ∧
    (Sophos.step fixture 0 [tenant 8, tenant 7] 1
      (Sophos.runSchedule fixture 0 [tenant 8, tenant 7] [0, 1, 1, 1, 1]
        ⟨Sophos.Proc.init, fun _ => .rlock⟩)).proc.nextKeys 7 = some "p2" ∧
    (Sophos.step fixture 0 [tenant 8, tenant 7] 1
      (Sophos.runSchedule fixture 0 [tenant 8, tenant 7] [0, 1, 1, 1, 1]
        ⟨Sophos.Proc.init, fun _ => .rlock⟩)).proc.readers = 1 := by
  refine ⟨by decide, by decide, by decide, by decide, by decide, by decide, by decide,
    by decide, by decide⟩

end UTM
